import Mathlib

/-!
A verification development for `objfcn.c`, a minimal in-process ELF
relocatable-object loader.  The embedding models the x86-64 build with the
default configuration (`OBJFCN_SPLIT_ALLOC = 0`, the shared 1 GiB arena).
Object files are modelled at the ELF-view level: section headers carry their
byte contents and the parsed views of their relocation and symbol records,
with string-table indirection pre-resolved (a `Sym.st_name` holds the
NUL-terminated name bytes that `strtab + sym->st_name` points at).
Machine memory is a total map from addresses (`Nat`) to bytes; multi-byte
accesses are little-endian, and all machine arithmetic wraps explicitly
modulo 2^32 or 2^64.
-/

namespace Objfcn

/-! ## ELF constants (from `elf.h`) -/

def SHT_SYMTAB : Nat := 2
def SHT_RELA : Nat := 4
def SHT_NOBITS : Nat := 8
def SHT_REL : Nat := 9

def SHF_ALLOC : Nat := 2
def SHN_UNDEF : Nat := 0

def STT_NOTYPE : Nat := 0
def STT_OBJECT : Nat := 1
def STT_FUNC : Nat := 2
def STT_SECTION : Nat := 3

def R_X86_64_64 : Nat := 1
def R_X86_64_PC32 : Nat := 2
def R_X86_64_PLT32 : Nat := 4
def R_X86_64_REX_GOTPCRELX : Nat := 42

/-- The four magic bytes `"\x7fELF"` compared by `memcmp(ehdr->e_ident, ELFMAG, 4)`. -/
def ELFMAG : List Nat := [0x7f, 0x45, 0x4c, 0x46]

/-- `EI_CLASS` value of the host: the embedding models the 64-bit build
(`__SIZEOF_POINTER__ == 8`), whose matching class would be `ELFCLASS64 = 2`. -/
def hostElfClass : Nat := 2

/-- Capacity of the static error buffer `static char obj_error[256]`. -/
def OBJ_ERROR_CAPACITY : Nat := 256

/-! ## Data model: the ELF view of an object file -/

/-- One relocation record (`Elf64_Rela` view).  For `SHT_REL` sections the
`r_addend` field is ignored by the engine (implicit addend 0). -/
structure Rel where
  r_offset : Nat
  r_sym : Nat
  r_type : Nat
  r_addend : Int
deriving Repr, DecidableEq, Inhabited

/-- One symbol-table entry (`Elf64_Sym` view).  `st_type` is
`ELF_ST_TYPE(st_info)`; `st_name` is the name string the entry's
string-table offset points at. -/
structure Sym where
  st_name : String
  st_type : Nat
  st_shndx : Nat
  st_value : Nat
deriving Repr, DecidableEq, Inhabited

/-- One section header together with the views of its contents:
`data` is the `sh_size`-byte region at `sh_offset` in the file buffer,
`rels` the parsed records when `sh_type` is `SHT_REL`/`SHT_RELA`, and
`syms` the parsed records when `sh_type` is `SHT_SYMTAB`. -/
structure Shdr where
  sh_type : Nat
  sh_flags : Nat
  sh_size : Nat
  sh_info : Nat
  sh_link : Nat
  data : List Nat
  rels : List Rel
  syms : List Sym
deriving Repr, DecidableEq, Inhabited

/-- The object file as the loader sees it after `read_file`. -/
structure ElfFile where
  ident : List Nat
  shdrs : List Shdr
deriving Repr, DecidableEq, Inhabited

/-- One entry of the symbol index (`typedef struct { char* name; char* addr; } symbol`). -/
structure symbol where
  name : String
  addr : Nat
deriving Repr, DecidableEq, Inhabited

/-- The object handle (`obj_handle`).  In the modelled default build the
per-object `code`/`code_size` fields stay NULL/0, so only the symbol index
is carried. -/
structure obj_handle where
  symbols : List symbol
deriving Repr, DecidableEq, Inhabited

/-! ## Byte-addressed memory -/

/-- Write one byte. -/
def writeByte (m : Nat → Nat) (a v : Nat) : Nat → Nat :=
  fun x => if x = a then v else m x

/-- Copy a byte string to consecutive addresses (the `memcpy` in section
placement). -/
def writeBytes (m : Nat → Nat) (a : Nat) : List Nat → (Nat → Nat)
  | [] => m
  | b :: bs => writeBytes (writeByte m a b) (a + 1) bs

/-- Little-endian 32-bit read (`*(uint32_t*)a`). -/
def readU32 (m : Nat → Nat) (a : Nat) : Nat :=
  m a + 256 * m (a + 1) + 65536 * m (a + 2) + 16777216 * m (a + 3)

/-- Little-endian 64-bit read (`*(uint64_t*)a`). -/
def readU64 (m : Nat → Nat) (a : Nat) : Nat :=
  m a + 256 * m (a + 1) + 65536 * m (a + 2) + 16777216 * m (a + 3) +
    4294967296 * m (a + 4) + 1099511627776 * m (a + 5) +
    281474976710656 * m (a + 6) + 72057594037927936 * m (a + 7)

/-- Little-endian 32-bit store. -/
def writeU32 (m : Nat → Nat) (a v : Nat) : Nat → Nat :=
  writeByte (writeByte (writeByte (writeByte m
    a (v % 256))
    (a + 1) (v / 256 % 256))
    (a + 2) (v / 65536 % 256))
    (a + 3) (v / 16777216 % 256)

/-- Little-endian 64-bit store. -/
def writeU64 (m : Nat → Nat) (a v : Nat) : Nat → Nat :=
  writeByte (writeByte (writeByte (writeByte (writeByte (writeByte (writeByte (writeByte m
    a (v % 256))
    (a + 1) (v / 256 % 256))
    (a + 2) (v / 65536 % 256))
    (a + 3) (v / 16777216 % 256))
    (a + 4) (v / 4294967296 % 256))
    (a + 5) (v / 1099511627776 % 256))
    (a + 6) (v / 281474976710656 % 256))
    (a + 7) (v / 72057594037927936 % 256)

/-- `*(uint32_t*)a += delta` with 32-bit wraparound. -/
def u32add (m : Nat → Nat) (a : Nat) (delta : Int) : Nat → Nat :=
  writeU32 m a (((readU32 m a : Int) + delta).emod 4294967296).toNat

/-- `*(uint64_t*)a += delta` with 64-bit wraparound. -/
def u64add (m : Nat → Nat) (a : Nat) (delta : Int) : Nat → Nat :=
  writeU64 m a (((readU64 m a : Int) + delta).emod 18446744073709551616).toNat

/-- Truncation of a 64-bit addend to the C `int` local
(`int addend = has_addend ? rel->r_addend : 0`). -/
def toInt32 (v : Int) : Int :=
  (v + 2147483648).emod 4294967296 - 2147483648

/-! ## Arena

The executable region: in the modelled default build this is the single
shared mapping `code` with bump pointer `code_used` (1 GiB capacity).
`mem` is the simultaneously readable/writable/executable byte store;
a fresh `MAP_ANONYMOUS` mapping is all zeros. -/

structure Arena where
  base : Nat
  capacity : Nat
  code_used : Nat
  mem : Nat → Nat

/-- `alloc_code`: returns `code + code_used` and bumps the pointer. -/
def alloc_code (st : Arena) (size : Nat) : Nat × Arena :=
  (st.base + st.code_used, { st with code_used := st.code_used + size })

/-- `align_down(v, align) = v & ~(align - 1)`; for the power-of-two
alignments used by the loader the bitmask equals rounding down to a
multiple. -/
def align_down (v align : Nat) : Nat := v - v % align

/-- `align_up(v, align) = align_down(v + align - 1, align)`. -/
def align_up (v align : Nat) : Nat := align_down (v + align - 1) align

/-- `align_code`: aligns the bump pointer. -/
def align_code (st : Arena) (align : Nat) : Arena :=
  { st with code_used := align_up st.code_used align }

/-! ## Relocation engine (`relocate`)

Errors carry the message written to `obj_error` together with the arena
state at the failure point (the shared arena's mutations persist when
`relocate` returns `(size_t)-1`). -/

/-- The symbol-type dispatch of `relocate` (the `switch (ELF_ST_TYPE(...))`):
computes the symbol address `S`, consulting the host resolver (`dlsym`)
for undefined no-type symbols. -/
def resolveSymAddr (resolver : String → Option Nat) (addrs : List Nat)
    (sym : Sym) : Except String Nat :=
  if sym.st_type = STT_SECTION then
    .ok (addrs.getD sym.st_shndx 0)
  else if sym.st_type = STT_FUNC ∨ sym.st_type = STT_OBJECT then
    .ok sym.st_value
  else if sym.st_type = STT_NOTYPE then
    if sym.st_shndx = SHN_UNDEF then
      match resolver sym.st_name with
      | some a => .ok a
      | none => .error ("failed to resolve " ++ sym.st_name)
    else
      .ok (addrs.getD sym.st_shndx 0)
  else
    .error ("unsupported relocation sym " ++ toString sym.st_type)

/-- One iteration of the inner relocation loop: the symbol-type dispatch
(skipped in sizing mode) followed by the relocation-type `switch`. -/
def applyRel (resolver : String → Option Nat) (symtab : List Sym)
    (addrs : List Nat) (hasAddend : Bool) (targetBase : Nat) (sizeOnly : Bool)
    (r : Rel) (st : Arena) (sizeAcc : Nat) :
    Except (String × Arena) (Arena × Nat) :=
  let target := targetBase + r.r_offset
  let sym := symtab.getD r.r_sym default
  let addend : Int := if hasAddend then toInt32 r.r_addend else 0
  if sizeOnly then
    if r.r_type = R_X86_64_64 then .ok (st, sizeAcc)
    else if r.r_type = R_X86_64_PC32 then .ok (st, sizeAcc)
    else if r.r_type = R_X86_64_PLT32 then .ok (st, sizeAcc + (6 + 8))
    else if r.r_type = R_X86_64_REX_GOTPCRELX then .ok (st, sizeAcc + 8)
    else .error ("Unknown reloc: " ++ toString r.r_type, st)
  else
    match resolveSymAddr resolver addrs sym with
    | .error e => .error (e, st)
    | .ok s =>
      if r.r_type = R_X86_64_64 then
        .ok ({ st with mem := u64add st.mem target ((s : Int) + addend) }, sizeAcc)
      else if r.r_type = R_X86_64_PC32 then
        .ok ({ st with mem := u32add st.mem target (((s : Int) - target) + addend) }, sizeAcc)
      else if r.r_type = R_X86_64_PLT32 then
        let (tramp, st1) := alloc_code st (6 + 8)
        let m1 := writeByte st1.mem tramp 0xff
        let m2 := writeByte m1 (tramp + 1) 0x25
        let m3 := writeU32 m2 (tramp + 2) 0
        let m4 := writeU64 m3 (tramp + 6) s
        let m5 := u32add m4 target (((tramp : Int) - target) + addend)
        .ok ({ st1 with mem := m5 }, sizeAcc)
      else if r.r_type = R_X86_64_REX_GOTPCRELX then
        let (slot, st1) := alloc_code st 8
        let m1 := writeU64 st1.mem slot s
        let m2 := u32add m1 target (((slot : Int) - target) + addend)
        .ok ({ st1 with mem := m2 }, sizeAcc)
      else
        .error ("Unknown reloc: " ++ toString r.r_type, st)

/-- The inner loop of `relocate` over one relocation section's records. -/
def applyRels (resolver : String → Option Nat) (symtab : List Sym)
    (addrs : List Nat) (hasAddend : Bool) (targetBase : Nat) (sizeOnly : Bool) :
    List Rel → Arena → Nat → Except (String × Arena) (Arena × Nat)
  | [], st, sizeAcc => .ok (st, sizeAcc)
  | r :: rs, st, sizeAcc =>
    match applyRel resolver symtab addrs hasAddend targetBase sizeOnly r st sizeAcc with
    | .error e => .error e
    | .ok (st1, sizeAcc1) =>
      applyRels resolver symtab addrs hasAddend targetBase sizeOnly rs st1 sizeAcc1

/-- The outer loop of `relocate` over all sections: relocation sections
whose target section (`sh_info`) is allocatable are processed, everything
else is skipped. -/
def relocateGo (resolver : String → Option Nat) (symtab : List Sym)
    (addrs : List Nat) (shdrs : List Shdr) (sizeOnly : Bool) :
    List Shdr → Arena → Nat → Except (String × Arena) (Arena × Nat)
  | [], st, sizeAcc => .ok (st, sizeAcc)
  | s :: ss, st, sizeAcc =>
    if (s.sh_type = SHT_REL ∨ s.sh_type = SHT_RELA) ∧
        (shdrs.getD s.sh_info default).sh_flags &&& SHF_ALLOC ≠ 0 then
      match applyRels resolver symtab addrs (s.sh_type == SHT_RELA)
          (addrs.getD s.sh_info 0) sizeOnly s.rels st sizeAcc with
      | .error e => .error e
      | .ok (st1, sizeAcc1) =>
        relocateGo resolver symtab addrs shdrs sizeOnly ss st1 sizeAcc1
    else
      relocateGo resolver symtab addrs shdrs sizeOnly ss st sizeAcc

/-- `relocate(obj, bin, symtab, strtab, addrs, code_size_only)`. -/
def relocate (resolver : String → Option Nat) (file : ElfFile)
    (symtab : List Sym) (addrs : List Nat) (sizeOnly : Bool) (st : Arena) :
    Except (String × Arena) (Arena × Nat) :=
  relocateGo resolver symtab addrs file.shdrs sizeOnly file.shdrs st 0

/-! ## Loader (`load_object`) -/

/-- The symbol-table discovery loop of `load_object`: scans the section
headers in order; each `SHT_SYMTAB` section overwrites the previous choice
(`symtab` stays NULL, modelled as `[]`, when none exists). -/
def findSymtab : List Shdr → List Sym → List Sym
  | [], acc => acc
  | s :: ss, acc => findSymtab ss (if s.sh_type = SHT_SYMTAB then s.syms else acc)

/-- The body of one placement iteration on an allocatable section:
`alloc_code` of `sh_size` bytes, `align_code(16)`, then the `memcpy` from
the file buffer unless the section is `SHT_NOBITS`. -/
def placeStep (s : Shdr) (st : Arena) : Arena :=
  let (a, st1) := alloc_code st s.sh_size
  let st2 := align_code st1 16
  if s.sh_type = SHT_NOBITS then st2
  else { st2 with mem := writeBytes st2.mem a s.data }

/-- Pass 2 (placement): for each section in index order, allocatable
sections record the bump pointer (`alloc_code`'s return value
`code + code_used`) and run `placeStep`; non-allocatable sections keep the
NULL sentinel (the `addrs` array was `memset` to zero). -/
def place : List Shdr → Arena → List Nat × Arena
  | [], st => ([], st)
  | s :: ss, st =>
    if s.sh_flags &&& SHF_ALLOC ≠ 0 then
      ((alloc_code st s.sh_size).1 :: (place ss (placeStep s st)).1,
        (place ss (placeStep s st)).2)
    else
      (0 :: (place ss st).1, (place ss st).2)

/-- Pass 3 (symbol emission), the record-building half: one `symbol`
record per `STT_OBJECT`/`STT_FUNC` entry, with address
`addrs[st_shndx] + st_value`. -/
def emitSymbols (addrs : List Nat) : List Sym → List symbol
  | [] => []
  | s :: ss =>
    if s.st_type = STT_OBJECT ∨ s.st_type = STT_FUNC then
      { name := s.st_name, addr := addrs.getD s.st_shndx 0 + s.st_value } ::
        emitSymbols addrs ss
    else emitSymbols addrs ss

/-- Pass 3, the in-place rewrite half: `sym->st_value` of each
`STT_OBJECT`/`STT_FUNC` entry is overwritten with its runtime address so
the relocation engine can read it uniformly. -/
def rewriteSymtab (addrs : List Nat) : List Sym → List Sym
  | [] => []
  | s :: ss =>
    (if s.st_type = STT_OBJECT ∨ s.st_type = STT_FUNC then
      { s with st_value := addrs.getD s.st_shndx 0 + s.st_value }
    else s) :: rewriteSymtab addrs ss

/-- `load_object`: symtab discovery, placement, symbol emission, then the
relocation engine in applying mode.  On engine failure the error message
and the arena state at the failure point propagate. -/
def load_object (resolver : String → Option Nat) (file : ElfFile)
    (st : Arena) : Except (String × Arena) (obj_handle × Arena) :=
  let symtab := findSymtab file.shdrs []
  let addrs := (place file.shdrs st).1
  let st1 := (place file.shdrs st).2
  let syms := emitSymbols addrs symtab
  let symtab1 := rewriteSymtab addrs symtab
  match relocate resolver file symtab1 addrs false st1 with
  | .error e => .error e
  | .ok (st2, _) => .ok ({ symbols := syms }, st2)

/-! ## Handle API (`objopen`, `objsym`, `objerror`) -/

/-- `objopen` from the point where the file bytes are in hand: the ELF
magic check, then `load_object`.  The result is the returned handle (or
NULL), the shared arena state, and the `obj_error` slot (unchanged on
success). -/
def objopen (resolver : String → Option Nat) (filename : String)
    (file : ElfFile) (st : Arena) (err : String) :
    Option obj_handle × Arena × String :=
  if file.ident.take 4 = ELFMAG then
    match load_object resolver file st with
    | .error (e, st1) => (none, st1, e)
    | .ok (h, st1) => (some h, st1, err)
  else
    (none, st, filename ++ " is not ELF")

/-- The scan loop of `objsym`: first entry whose name `strcmp`s equal. -/
def objsymGo (name : String) : List symbol → Option Nat
  | [] => none
  | s :: ss => if s.name = name then some s.addr else objsymGo name ss

/-- `objsym(handle, symbol)`. -/
def objsym (h : obj_handle) (name : String) : Option Nat :=
  objsymGo name h.symbols

/-! ## Resource model for `objclose`

`objclose` is pure resource release: `munmap` of the per-object mapping
when one exists (`if (obj->code)`), `free` of each `strdup`ed symbol name,
`free` of the handle struct, and the constant return value 0.  The heap is
modelled as the lists of live mappings and live allocations, and a handle
as the identities of the resources it owns. -/

structure HeapState where
  mappings : List (Nat × Nat)
  allocs : List Nat
deriving Repr, DecidableEq

/-- `free(p)`: the allocation disappears from the heap. -/
def freeAlloc (st : HeapState) (p : Nat) : HeapState :=
  { st with allocs := st.allocs.erase p }

/-- `munmap(base, len)`: the mapping disappears. -/
def munmapOp (st : HeapState) (m : Nat × Nat) : HeapState :=
  { st with mappings := st.mappings.erase m }

/-- The `for` loop of `objclose` freeing `obj->symbols[i].name` in order. -/
def freeSymbolNames : HeapState → List Nat → HeapState
  | st, [] => st
  | st, p :: ps => freeSymbolNames (freeAlloc st p) ps

/-- The resources owned by one `obj_handle`: the optional per-object
mapping (`obj->code`, NULL in the modelled default build), the name
allocations, and the handle allocation itself. -/
structure HandleRes where
  code : Option (Nat × Nat)
  names : List Nat
  self : Nat
deriving Repr, DecidableEq

/-- `objclose(handle)`. -/
def objclose (st : HeapState) (h : HandleRes) : Int × HeapState :=
  let st1 := match h.code with
    | some m => munmapOp st m
    | none => st
  let st2 := freeSymbolNames st1 h.names
  let st3 := freeAlloc st2 h.self
  (0, st3)

/-! ## Spec-side definitions used for refinement comparisons -/

/-- Bytes the spec says sizing mode reserves for one relocation record:
14 for `PLT32`, 8 for `REX_GOTPCRELX`, 0 otherwise. -/
def relSizingBytes (r : Rel) : Nat :=
  if r.r_type = R_X86_64_PLT32 then 14
  else if r.r_type = R_X86_64_REX_GOTPCRELX then 8
  else 0

/-- Whether a section is driven over by the relocation engine: a
REL/RELA section whose target section is allocatable. -/
def consideredB (shdrs : List Shdr) (s : Shdr) : Bool :=
  (s.sh_type == SHT_REL || s.sh_type == SHT_RELA) &&
    (shdrs.getD s.sh_info default).sh_flags &&& SHF_ALLOC != 0

/-- Following the spec's words: the total trampoline/slot bytes reserved
by sizing mode, summed over the relocation records of the sections the
engine drives over. -/
def specSizingBytes (file : ElfFile) : Nat :=
  ((file.shdrs.filter (consideredB file.shdrs)).map
    (fun s => (s.rels.map relSizingBytes).sum)).sum

/-- A relocation type the 64-bit x86 engine handles. -/
def relTypeHandled (t : Nat) : Prop :=
  t = R_X86_64_64 ∨ t = R_X86_64_PC32 ∨ t = R_X86_64_PLT32 ∨
    t = R_X86_64_REX_GOTPCRELX

instance (t : Nat) : Decidable (relTypeHandled t) := by
  unfold relTypeHandled; infer_instance

/-- Every relocation record the engine would reach has a handled type. -/
def allRelsHandled (file : ElfFile) : Prop :=
  ∀ s ∈ file.shdrs, consideredB file.shdrs s = true →
    ∀ r ∈ s.rels, relTypeHandled r.r_type

instance (file : ElfFile) : Decidable (allRelsHandled file) := by
  unfold allRelsHandled; infer_instance

/-! ## Projection helpers for stating results without binders -/

def isOkE (r : Except (String × Arena) (Arena × Nat)) : Bool :=
  match r with
  | .ok _ => true
  | .error _ => false

def okArena (r : Except (String × Arena) (Arena × Nat)) (d : Arena) : Arena :=
  match r with
  | .ok (st, _) => st
  | .error _ => d

def okSize (r : Except (String × Arena) (Arena × Nat)) : Nat :=
  match r with
  | .ok (_, k) => k
  | .error _ => 0

def errMsg (r : Except (String × Arena) (Arena × Nat)) : String :=
  match r with
  | .ok _ => ""
  | .error (e, _) => e

def errArena (r : Except (String × Arena) (Arena × Nat)) (d : Arena) : Arena :=
  match r with
  | .ok _ => d
  | .error (_, st) => st

/-! ## Concrete inputs used by witnesses and counterexamples -/

/-- A fresh shared arena: page-aligned base, 1 GiB capacity, zeroed bytes. -/
def arena0 : Arena :=
  { base := 4096, capacity := 1073741824, code_used := 0, mem := fun _ => 0 }

/-- The mandatory null section header (index 0). -/
def nullShdr : Shdr :=
  { sh_type := 0, sh_flags := 0, sh_size := 0, sh_info := 0, sh_link := 0,
    data := [], rels := [], syms := [] }

/-- The mandatory null symbol (index 0). -/
def nullSym : Sym :=
  { st_name := "", st_type := 0, st_shndx := 0, st_value := 0 }

/-- A well-formed ELF `e_ident` for the 64-bit host. -/
def ident64 : List Nat :=
  [0x7f, 0x45, 0x4c, 0x46, 2, 1, 1, 0, 0, 0, 0, 0, 0, 0, 0, 0]

/-- A 4-byte allocatable `.text` section. -/
def textShdr : Shdr :=
  { sh_type := 1, sh_flags := 6, sh_size := 4, sh_info := 0, sh_link := 0,
    data := [0, 0, 0, 0], rels := [], syms := [] }

/-- An object whose only relocation references the undefined no-type
symbol `name` (a PC32 against `.text`, as a `call` to an external
function produces). -/
def objWithExtern (name : String) : ElfFile :=
  { ident := ident64,
    shdrs :=
      [nullShdr,
       textShdr,
       { sh_type := SHT_RELA, sh_flags := 0, sh_size := 24, sh_info := 1,
         sh_link := 3, data := [], syms := [],
         rels := [{ r_offset := 0, r_sym := 1, r_type := 2, r_addend := -4 }] },
       { sh_type := SHT_SYMTAB, sh_flags := 0, sh_size := 48, sh_info := 0,
         sh_link := 4, data := [], rels := [],
         syms := [nullSym,
                  { st_name := name, st_type := 0, st_shndx := 0, st_value := 0 }] }] }

/-- Like `objWithExtern`, but the relocation section targets a
non-allocatable section (as `.rela.debug_info` does), so the engine skips
it. -/
def objWithSkippedExtern : ElfFile :=
  { ident := ident64,
    shdrs :=
      [nullShdr,
       textShdr,
       { sh_type := 1, sh_flags := 0, sh_size := 4, sh_info := 0, sh_link := 0,
         data := [0, 0, 0, 0], rels := [], syms := [] },
       { sh_type := SHT_RELA, sh_flags := 0, sh_size := 24, sh_info := 2,
         sh_link := 4, data := [], syms := [],
         rels := [{ r_offset := 0, r_sym := 1, r_type := 2, r_addend := -4 }] },
       { sh_type := SHT_SYMTAB, sh_flags := 0, sh_size := 48, sh_info := 0,
         sh_link := 5, data := [], rels := [],
         syms := [nullSym,
                  { st_name := "nosuch", st_type := 0, st_shndx := 0,
                    st_value := 0 }] }] }

/-- An object carrying one relocation of type `n` against `.text`, whose
symbol resolves without the host resolver (a section symbol). -/
def objWithRelocType (n : Nat) : ElfFile :=
  { ident := ident64,
    shdrs :=
      [nullShdr,
       textShdr,
       { sh_type := SHT_RELA, sh_flags := 0, sh_size := 24, sh_info := 1,
         sh_link := 3, data := [], syms := [],
         rels := [{ r_offset := 0, r_sym := 1, r_type := n, r_addend := 0 }] },
       { sh_type := SHT_SYMTAB, sh_flags := 0, sh_size := 48, sh_info := 0,
         sh_link := 4, data := [], rels := [],
         syms := [nullSym,
                  { st_name := "", st_type := STT_SECTION, st_shndx := 1,
                    st_value := 0 }] }] }

/-- Like `objWithRelocType 99`, but the relocation section targets a
non-allocatable section, so the unknown type is never inspected. -/
def objWithSkippedBadReloc : ElfFile :=
  { ident := ident64,
    shdrs :=
      [nullShdr,
       textShdr,
       { sh_type := 1, sh_flags := 0, sh_size := 4, sh_info := 0, sh_link := 0,
         data := [0, 0, 0, 0], rels := [], syms := [] },
       { sh_type := SHT_RELA, sh_flags := 0, sh_size := 24, sh_info := 2,
         sh_link := 4, data := [], syms := [],
         rels := [{ r_offset := 0, r_sym := 1, r_type := 99, r_addend := 0 }] },
       { sh_type := SHT_SYMTAB, sh_flags := 0, sh_size := 48, sh_info := 0,
         sh_link := 5, data := [], rels := [],
         syms := [nullSym,
                  { st_name := "", st_type := STT_SECTION, st_shndx := 1,
                    st_value := 0 }] }] }

/-- An accepted object defining a `STT_FUNC` symbol whose `st_shndx` is
`SHN_UNDEF`: `addrs[0]` is the NULL sentinel, so the emitted address is
the bare `st_value`. -/
def objWithStrayFunc : ElfFile :=
  { ident := ident64,
    shdrs :=
      [nullShdr,
       { sh_type := SHT_SYMTAB, sh_flags := 0, sh_size := 48, sh_info := 0,
         sh_link := 2, data := [], rels := [],
         syms := [nullSym,
                  { st_name := "f", st_type := STT_FUNC, st_shndx := 0,
                    st_value := 1 }] }] }

/-- A well-behaved object: an 8-byte `.text` with a function symbol at
offset 4. -/
def objWellFormed : ElfFile :=
  { ident := ident64,
    shdrs :=
      [nullShdr,
       { sh_type := 1, sh_flags := 6, sh_size := 8, sh_info := 0, sh_link := 0,
         data := [1, 2, 3, 4, 5, 6, 7, 8], rels := [], syms := [] },
       { sh_type := SHT_SYMTAB, sh_flags := 0, sh_size := 48, sh_info := 0,
         sh_link := 3, data := [], rels := [],
         syms := [nullSym,
                  { st_name := "f", st_type := STT_FUNC, st_shndx := 1,
                    st_value := 4 }] }] }

/-- A file whose magic bytes are correct but whose `EI_CLASS` byte is
`ELFCLASS32 = 1`, mismatching the 64-bit host. -/
def objWrongClass : ElfFile :=
  { ident := [0x7f, 0x45, 0x4c, 0x46, 1, 1, 1, 0, 0, 0, 0, 0, 0, 0, 0, 0],
    shdrs := [nullShdr] }

/-- A resolver that knows nothing. -/
def emptyResolver : String → Option Nat := fun _ => none

/-- A 300-byte symbol name, as a crafted string table can contain. -/
def longSymName : String := String.mk (List.replicate 300 'a')

/-! ## Lemmas about byte memory -/

theorem writeByte_at (m : Nat → Nat) (a v : Nat) : writeByte m a v a = v := by
  simp [writeByte]

theorem writeByte_ne (m : Nat → Nat) (a v x : Nat) (h : x ≠ a) :
    writeByte m a v x = m x := by
  simp [writeByte, h]

theorem writeU32_outside (m : Nat → Nat) (a v x : Nat)
    (h : x < a ∨ a + 4 ≤ x) : writeU32 m a v x = m x := by
  unfold writeU32 writeByte
  repeat rw [if_neg (by omega)]

theorem writeU64_outside (m : Nat → Nat) (a v x : Nat)
    (h : x < a ∨ a + 8 ≤ x) : writeU64 m a v x = m x := by
  unfold writeU64 writeByte
  repeat rw [if_neg (by omega)]

theorem writeBytes_outside (l : List Nat) (m : Nat → Nat) (a x : Nat)
    (h : x < a ∨ a + l.length ≤ x) : writeBytes m a l x = m x := by
  induction l generalizing m a with
  | nil => rfl
  | cons b bs ih =>
    simp only [writeBytes]
    rw [ih _ (a + 1) (by simp at h ⊢; omega), writeByte_ne _ _ _ _ (by simp at h; omega)]

theorem writeBytes_getD (l : List Nat) (m : Nat → Nat) (a k : Nat)
    (h : k < l.length) : writeBytes m a l (a + k) = l.getD k 0 := by
  induction l generalizing m a k with
  | nil => simp at h
  | cons b bs ih =>
    cases k with
    | zero =>
      simp only [writeBytes, List.getD_cons_zero]
      rw [writeBytes_outside _ _ _ _ (by omega)]
      simp [writeByte]
    | succ k =>
      simp only [writeBytes, List.getD_cons_succ]
      have : a + (k + 1) = (a + 1) + k := by omega
      rw [this, ih _ (a + 1) k (by simpa using h)]

theorem readU32_writeU32 (m : Nat → Nat) (a v : Nat) :
    readU32 (writeU32 m a v) a = v % 4294967296 := by
  have h0 : writeU32 m a v a = v % 256 := by
    unfold writeU32 writeByte
    rw [if_neg (by omega), if_neg (by omega), if_neg (by omega), if_pos rfl]
  have h1 : writeU32 m a v (a + 1) = v / 256 % 256 := by
    unfold writeU32 writeByte
    rw [if_neg (by omega), if_neg (by omega), if_pos rfl]
  have h2 : writeU32 m a v (a + 2) = v / 65536 % 256 := by
    unfold writeU32 writeByte
    rw [if_neg (by omega), if_pos rfl]
  have h3 : writeU32 m a v (a + 3) = v / 16777216 % 256 := by
    unfold writeU32 writeByte
    rw [if_pos rfl]
  unfold readU32
  rw [h0, h1, h2, h3]
  omega

theorem readU64_writeU64 (m : Nat → Nat) (a v : Nat) :
    readU64 (writeU64 m a v) a = v % 18446744073709551616 := by
  have h0 : writeU64 m a v a = v % 256 := by
    unfold writeU64 writeByte
    repeat rw [if_neg (by omega)]
    rw [if_pos rfl]
  have h1 : writeU64 m a v (a + 1) = v / 256 % 256 := by
    unfold writeU64 writeByte
    repeat rw [if_neg (by omega)]
    rw [if_pos rfl]
  have h2 : writeU64 m a v (a + 2) = v / 65536 % 256 := by
    unfold writeU64 writeByte
    repeat rw [if_neg (by omega)]
    rw [if_pos rfl]
  have h3 : writeU64 m a v (a + 3) = v / 16777216 % 256 := by
    unfold writeU64 writeByte
    repeat rw [if_neg (by omega)]
    rw [if_pos rfl]
  have h4 : writeU64 m a v (a + 4) = v / 4294967296 % 256 := by
    unfold writeU64 writeByte
    repeat rw [if_neg (by omega)]
    rw [if_pos rfl]
  have h5 : writeU64 m a v (a + 5) = v / 1099511627776 % 256 := by
    unfold writeU64 writeByte
    repeat rw [if_neg (by omega)]
    rw [if_pos rfl]
  have h6 : writeU64 m a v (a + 6) = v / 281474976710656 % 256 := by
    unfold writeU64 writeByte
    rw [if_neg (by omega), if_pos rfl]
  have h7 : writeU64 m a v (a + 7) = v / 72057594037927936 % 256 := by
    unfold writeU64 writeByte
    rw [if_pos rfl]
  unfold readU64
  rw [h0, h1, h2, h3, h4, h5, h6, h7]
  omega

theorem readU32_congr (m1 m2 : Nat → Nat) (a : Nat)
    (h : ∀ k, k < 4 → m1 (a + k) = m2 (a + k)) : readU32 m1 a = readU32 m2 a := by
  unfold readU32
  have e0 := h 0 (by omega)
  have e1 := h 1 (by omega)
  have e2 := h 2 (by omega)
  have e3 := h 3 (by omega)
  simp only [Nat.add_zero] at e0
  rw [e0, e1, e2, e3]

theorem readU64_congr (m1 m2 : Nat → Nat) (a : Nat)
    (h : ∀ k, k < 8 → m1 (a + k) = m2 (a + k)) : readU64 m1 a = readU64 m2 a := by
  unfold readU64
  have e0 := h 0 (by omega)
  have e1 := h 1 (by omega)
  have e2 := h 2 (by omega)
  have e3 := h 3 (by omega)
  have e4 := h 4 (by omega)
  have e5 := h 5 (by omega)
  have e6 := h 6 (by omega)
  have e7 := h 7 (by omega)
  simp only [Nat.add_zero] at e0
  rw [e0, e1, e2, e3, e4, e5, e6, e7]

theorem u32add_outside (m : Nat → Nat) (a : Nat) (d : Int) (x : Nat)
    (h : x < a ∨ a + 4 ≤ x) : u32add m a d x = m x :=
  writeU32_outside _ _ _ _ h

theorem readU32_u32add (m : Nat → Nat) (a : Nat) (d : Int) :
    readU32 (u32add m a d) a =
      (((readU32 m a : Int) + d).emod 4294967296).toNat := by
  unfold u32add
  rw [readU32_writeU32]
  have hlt : ((readU32 m a : Int) + d).emod 4294967296 < 4294967296 :=
    Int.emod_lt_of_pos _ (by omega)
  have hge : 0 ≤ ((readU32 m a : Int) + d).emod 4294967296 :=
    Int.emod_nonneg _ (by omega)
  omega

/-! ## Lemmas about alignment -/

theorem align_up16_ge (v : Nat) : v ≤ align_up v 16 := by
  unfold align_up align_down; omega

theorem align_up16_lt (v : Nat) : align_up v 16 < v + 16 := by
  unfold align_up align_down; omega

theorem align_up16_mod (v : Nat) : align_up v 16 % 16 = 0 := by
  unfold align_up align_down; omega

/-! ## Lemmas about placement -/

theorem place_fst_cons_alloc (s : Shdr) (ss : List Shdr) (st : Arena)
    (h : s.sh_flags &&& SHF_ALLOC ≠ 0) :
    (place (s :: ss) st).1 =
      (alloc_code st s.sh_size).1 :: (place ss (placeStep s st)).1 := by
  conv_lhs => rw [place]
  rw [if_pos h]

theorem place_snd_cons_alloc (s : Shdr) (ss : List Shdr) (st : Arena)
    (h : s.sh_flags &&& SHF_ALLOC ≠ 0) :
    (place (s :: ss) st).2 = (place ss (placeStep s st)).2 := by
  conv_lhs => rw [place]
  rw [if_pos h]

theorem place_fst_cons_skip (s : Shdr) (ss : List Shdr) (st : Arena)
    (h : ¬ s.sh_flags &&& SHF_ALLOC ≠ 0) :
    (place (s :: ss) st).1 = 0 :: (place ss st).1 := by
  conv_lhs => rw [place]
  rw [if_neg h]

theorem place_snd_cons_skip (s : Shdr) (ss : List Shdr) (st : Arena)
    (h : ¬ s.sh_flags &&& SHF_ALLOC ≠ 0) :
    (place (s :: ss) st).2 = (place ss st).2 := by
  conv_lhs => rw [place]
  rw [if_neg h]

theorem placeStep_base (s : Shdr) (st : Arena) :
    (placeStep s st).base = st.base := by
  simp only [placeStep, alloc_code, align_code]
  split <;> rfl

theorem placeStep_capacity (s : Shdr) (st : Arena) :
    (placeStep s st).capacity = st.capacity := by
  simp only [placeStep, alloc_code, align_code]
  split <;> rfl

theorem placeStep_code_used (s : Shdr) (st : Arena) :
    (placeStep s st).code_used = align_up (st.code_used + s.sh_size) 16 := by
  simp only [placeStep, alloc_code, align_code]
  split <;> rfl

theorem placeStep_code_used_ge (s : Shdr) (st : Arena) :
    st.code_used + s.sh_size ≤ (placeStep s st).code_used := by
  rw [placeStep_code_used]
  exact align_up16_ge _

/-- `placeStep` writes nothing below the bump pointer. -/
theorem placeStep_mem_low (s : Shdr) (st : Arena) (x : Nat)
    (h : x < st.base + st.code_used) : (placeStep s st).mem x = st.mem x := by
  simp only [placeStep, alloc_code, align_code]
  split
  · rfl
  · exact writeBytes_outside _ _ _ _ (Or.inl h)

/-- `placeStep` writes nothing at or above the new bump pointer, provided
the copied bytes fit in the section's slot. -/
theorem placeStep_mem_high (s : Shdr) (st : Arena) (x : Nat)
    (hlen : s.data.length ≤ s.sh_size)
    (h : st.base + align_up (st.code_used + s.sh_size) 16 ≤ x) :
    (placeStep s st).mem x = st.mem x := by
  have hge := align_up16_ge (st.code_used + s.sh_size)
  simp only [placeStep, alloc_code, align_code]
  split
  · rfl
  · exact writeBytes_outside _ _ _ _ (Or.inr (by omega))

theorem place_length (ss : List Shdr) (st : Arena) :
    (place ss st).1.length = ss.length := by
  induction ss generalizing st with
  | nil => rfl
  | cons s ss ih =>
    by_cases h : s.sh_flags &&& SHF_ALLOC ≠ 0
    · rw [place_fst_cons_alloc _ _ _ h]; simp [ih]
    · rw [place_fst_cons_skip _ _ _ h]; simp [ih]

theorem place_base (ss : List Shdr) (st : Arena) :
    (place ss st).2.base = st.base := by
  induction ss generalizing st with
  | nil => rfl
  | cons s ss ih =>
    by_cases h : s.sh_flags &&& SHF_ALLOC ≠ 0
    · rw [place_snd_cons_alloc _ _ _ h, ih, placeStep_base]
    · rw [place_snd_cons_skip _ _ _ h]; exact ih st

theorem place_capacity (ss : List Shdr) (st : Arena) :
    (place ss st).2.capacity = st.capacity := by
  induction ss generalizing st with
  | nil => rfl
  | cons s ss ih =>
    by_cases h : s.sh_flags &&& SHF_ALLOC ≠ 0
    · rw [place_snd_cons_alloc _ _ _ h, ih, placeStep_capacity]
    · rw [place_snd_cons_skip _ _ _ h]; exact ih st

theorem place_mono (ss : List Shdr) (st : Arena) :
    st.code_used ≤ (place ss st).2.code_used := by
  induction ss generalizing st with
  | nil => exact le_refl _
  | cons s ss ih =>
    by_cases h : s.sh_flags &&& SHF_ALLOC ≠ 0
    · rw [place_snd_cons_alloc _ _ _ h]
      have h1 := placeStep_code_used_ge s st
      have h2 := ih (placeStep s st)
      omega
    · rw [place_snd_cons_skip _ _ _ h]; exact ih st

/-- Placement writes nothing below the incoming bump pointer. -/
theorem place_mem_low (ss : List Shdr) (st : Arena) (x : Nat)
    (h : x < st.base + st.code_used) : (place ss st).2.mem x = st.mem x := by
  induction ss generalizing st with
  | nil => rfl
  | cons s ss ih =>
    by_cases hA : s.sh_flags &&& SHF_ALLOC ≠ 0
    · rw [place_snd_cons_alloc _ _ _ hA]
      have h1 : x < (placeStep s st).base + (placeStep s st).code_used := by
        rw [placeStep_base]
        have := placeStep_code_used_ge s st
        omega
      rw [ih (placeStep s st) h1, placeStep_mem_low _ _ _ h]
    · rw [place_snd_cons_skip _ _ _ hA]; exact ih st h

/-- Every allocatable section's runtime base is at or above the incoming
bump pointer. -/
theorem place_addr_lb (ss : List Shdr) (st : Arena) (i : Nat)
    (hi : i < ss.length) (hA : (ss.getD i default).sh_flags &&& SHF_ALLOC ≠ 0) :
    st.base + st.code_used ≤ (place ss st).1.getD i 0 := by
  induction ss generalizing st i with
  | nil => simp at hi
  | cons s ss ih =>
    cases i with
    | zero =>
      simp only [List.getD_cons_zero] at hA
      rw [place_fst_cons_alloc _ _ _ hA]
      simp [alloc_code]
    | succ i =>
      simp only [List.getD_cons_succ] at hA
      by_cases hAs : s.sh_flags &&& SHF_ALLOC ≠ 0
      · rw [place_fst_cons_alloc _ _ _ hAs]
        simp only [List.getD_cons_succ]
        have h1 := ih (placeStep s st) i (by simpa using hi) hA
        rw [placeStep_base] at h1
        have h2 := placeStep_code_used_ge s st
        omega
      · rw [place_fst_cons_skip _ _ _ hAs]
        simp only [List.getD_cons_succ]
        exact ih st i (by simpa using hi) hA

/-- Every allocatable section's placed extent ends at or below the final
bump pointer. -/
theorem place_extent (ss : List Shdr) (st : Arena) (i : Nat)
    (hi : i < ss.length) (hA : (ss.getD i default).sh_flags &&& SHF_ALLOC ≠ 0) :
    (place ss st).1.getD i 0 + (ss.getD i default).sh_size ≤
      st.base + (place ss st).2.code_used := by
  induction ss generalizing st i with
  | nil => simp at hi
  | cons s ss ih =>
    cases i with
    | zero =>
      simp only [List.getD_cons_zero] at hA ⊢
      rw [place_fst_cons_alloc _ _ _ hA, place_snd_cons_alloc _ _ _ hA]
      simp only [List.getD_cons_zero, alloc_code]
      have h1 := placeStep_code_used_ge s st
      have h2 := place_mono ss (placeStep s st)
      omega
    | succ i =>
      simp only [List.getD_cons_succ] at hA ⊢
      by_cases hAs : s.sh_flags &&& SHF_ALLOC ≠ 0
      · rw [place_fst_cons_alloc _ _ _ hAs, place_snd_cons_alloc _ _ _ hAs]
        simp only [List.getD_cons_succ]
        have h1 := ih (placeStep s st) i (by simpa using hi) hA
        rw [placeStep_base] at h1
        exact h1
      · rw [place_fst_cons_skip _ _ _ hAs, place_snd_cons_skip _ _ _ hAs]
        simp only [List.getD_cons_succ]
        exact ih st i (by simpa using hi) hA

/-- Allocatable sections are laid out in section-index order: an earlier
section's extent ends at or before a later section's base. -/
theorem place_order (ss : List Shdr) (st : Arena) (i j : Nat)
    (hij : i < j) (hj : j < ss.length)
    (hAi : (ss.getD i default).sh_flags &&& SHF_ALLOC ≠ 0)
    (hAj : (ss.getD j default).sh_flags &&& SHF_ALLOC ≠ 0) :
    (place ss st).1.getD i 0 + (ss.getD i default).sh_size ≤
      (place ss st).1.getD j 0 := by
  induction ss generalizing st i j with
  | nil => simp at hj
  | cons s ss ih =>
    cases i with
    | zero =>
      cases j with
      | zero => omega
      | succ j =>
        simp only [List.getD_cons_zero] at hAi
        simp only [List.getD_cons_succ] at hAj
        rw [place_fst_cons_alloc _ _ _ hAi]
        simp only [List.getD_cons_zero, List.getD_cons_succ, alloc_code]
        have h1 := place_addr_lb ss (placeStep s st) j (by simpa using hj) hAj
        rw [placeStep_base] at h1
        have h2 := placeStep_code_used_ge s st
        omega
    | succ i =>
      cases j with
      | zero => omega
      | succ j =>
        simp only [List.getD_cons_succ] at hAi hAj
        by_cases hAs : s.sh_flags &&& SHF_ALLOC ≠ 0
        · rw [place_fst_cons_alloc _ _ _ hAs]
          simp only [List.getD_cons_succ]
          exact ih (placeStep s st) i j (by omega) (by simpa using hj) hAi hAj
        · rw [place_fst_cons_skip _ _ _ hAs]
          simp only [List.getD_cons_succ]
          exact ih st i j (by omega) (by simpa using hj) hAi hAj

/-- `placeStep` on an uninitialized-data section writes nothing. -/
theorem placeStep_mem_nobits (s : Shdr) (st : Arena)
    (h : s.sh_type = SHT_NOBITS) : (placeStep s st).mem = st.mem := by
  simp only [placeStep, alloc_code, align_code]
  rw [if_pos h]

/-- `placeStep` on an initialized section is the `memcpy` from the file
buffer to the freshly allocated base. -/
theorem placeStep_mem_copy (s : Shdr) (st : Arena)
    (h : ¬ s.sh_type = SHT_NOBITS) :
    (placeStep s st).mem = writeBytes st.mem (st.base + st.code_used) s.data := by
  simp only [placeStep, alloc_code, align_code]
  rw [if_neg h]

/-- After placement, an uninitialized-data (`SHT_NOBITS`) section's region
consists of all-zero bytes, provided the untouched part of the arena was
zero (fresh anonymous mapping) and every copied section fits its slot. -/
theorem place_mem_nobits (ss : List Shdr) (st : Arena) (i k : Nat)
    (hwf : ∀ s ∈ ss, s.sh_flags &&& SHF_ALLOC ≠ 0 → s.sh_type ≠ SHT_NOBITS →
      s.data.length ≤ s.sh_size)
    (hzero : ∀ a, st.base + st.code_used ≤ a → st.mem a = 0)
    (hi : i < ss.length)
    (hA : (ss.getD i default).sh_flags &&& SHF_ALLOC ≠ 0)
    (hN : (ss.getD i default).sh_type = SHT_NOBITS)
    (hk : k < (ss.getD i default).sh_size) :
    (place ss st).2.mem ((place ss st).1.getD i 0 + k) = 0 := by
  induction ss generalizing st i with
  | nil => simp at hi
  | cons s ss ih =>
    cases i with
    | zero =>
      simp only [List.getD_cons_zero] at hA hN hk
      rw [place_fst_cons_alloc _ _ _ hA, place_snd_cons_alloc _ _ _ hA]
      simp only [List.getD_cons_zero, alloc_code]
      have hstep := placeStep_code_used_ge s st
      have hlow : st.base + st.code_used + k <
          (placeStep s st).base + (placeStep s st).code_used := by
        rw [placeStep_base]; omega
      rw [place_mem_low _ _ _ hlow, placeStep_mem_nobits _ _ hN]
      exact hzero _ (by omega)
    | succ i =>
      simp only [List.getD_cons_succ] at hA hN hk
      have hwfTail : ∀ s ∈ ss, s.sh_flags &&& SHF_ALLOC ≠ 0 →
          s.sh_type ≠ SHT_NOBITS → s.data.length ≤ s.sh_size :=
        fun x hx => hwf x (List.mem_cons_of_mem _ hx)
      by_cases hAs : s.sh_flags &&& SHF_ALLOC ≠ 0
      · rw [place_fst_cons_alloc _ _ _ hAs, place_snd_cons_alloc _ _ _ hAs]
        simp only [List.getD_cons_succ]
        refine ih (placeStep s st) i hwfTail ?_ (by simpa using hi) hA hN hk
        intro a ha
        rw [placeStep_base] at ha
        have hstep := placeStep_code_used_ge s st
        by_cases hNs : s.sh_type = SHT_NOBITS
        · rw [placeStep_mem_nobits _ _ hNs]
          exact hzero _ (by omega)
        · rw [placeStep_mem_copy _ _ hNs]
          have hfit := hwf s (List.mem_cons_self _ _) hAs hNs
          rw [placeStep_code_used] at ha
          have := align_up16_ge (st.code_used + s.sh_size)
          rw [writeBytes_outside _ _ _ _ (Or.inr (by omega))]
          exact hzero _ (by omega)
      · rw [place_fst_cons_skip _ _ _ hAs, place_snd_cons_skip _ _ _ hAs]
        simp only [List.getD_cons_succ]
        exact ih st i hwfTail hzero (by simpa using hi) hA hN hk

/-- After placement, an initialized allocatable section's region holds a
verbatim copy of its bytes from the source buffer. -/
theorem place_mem_copy (ss : List Shdr) (st : Arena) (i k : Nat)
    (hwf : ∀ s ∈ ss, s.sh_flags &&& SHF_ALLOC ≠ 0 → s.sh_type ≠ SHT_NOBITS →
      s.data.length ≤ s.sh_size)
    (hi : i < ss.length)
    (hA : (ss.getD i default).sh_flags &&& SHF_ALLOC ≠ 0)
    (hN : ¬ (ss.getD i default).sh_type = SHT_NOBITS)
    (hk : k < (ss.getD i default).data.length) :
    (place ss st).2.mem ((place ss st).1.getD i 0 + k) =
      (ss.getD i default).data.getD k 0 := by
  induction ss generalizing st i with
  | nil => simp at hi
  | cons s ss ih =>
    cases i with
    | zero =>
      simp only [List.getD_cons_zero] at hA hN hk ⊢
      rw [place_fst_cons_alloc _ _ _ hA, place_snd_cons_alloc _ _ _ hA]
      simp only [List.getD_cons_zero, alloc_code]
      have hfit := hwf s (List.mem_cons_self _ _) hA hN
      have hstep := placeStep_code_used_ge s st
      have hlow : st.base + st.code_used + k <
          (placeStep s st).base + (placeStep s st).code_used := by
        rw [placeStep_base]; omega
      rw [place_mem_low _ _ _ hlow, placeStep_mem_copy _ _ hN]
      exact writeBytes_getD _ _ _ _ hk
    | succ i =>
      simp only [List.getD_cons_succ] at hA hN hk ⊢
      have hwfTail : ∀ s ∈ ss, s.sh_flags &&& SHF_ALLOC ≠ 0 →
          s.sh_type ≠ SHT_NOBITS → s.data.length ≤ s.sh_size :=
        fun x hx => hwf x (List.mem_cons_of_mem _ hx)
      by_cases hAs : s.sh_flags &&& SHF_ALLOC ≠ 0
      · rw [place_fst_cons_alloc _ _ _ hAs, place_snd_cons_alloc _ _ _ hAs]
        simp only [List.getD_cons_succ]
        exact ih (placeStep s st) i hwfTail (by simpa using hi) hA hN hk
      · rw [place_fst_cons_skip _ _ _ hAs, place_snd_cons_skip _ _ _ hAs]
        simp only [List.getD_cons_succ]
        exact ih st i hwfTail (by simpa using hi) hA hN hk

/-- With a 16-aligned base and bump pointer, every placed section base is
16-aligned. -/
theorem place_aligned (ss : List Shdr) (st : Arena) (i : Nat)
    (hb : st.base % 16 = 0) (hu : st.code_used % 16 = 0)
    (hi : i < ss.length) (hA : (ss.getD i default).sh_flags &&& SHF_ALLOC ≠ 0) :
    (place ss st).1.getD i 0 % 16 = 0 := by
  induction ss generalizing st i with
  | nil => simp at hi
  | cons s ss ih =>
    cases i with
    | zero =>
      simp only [List.getD_cons_zero] at hA
      rw [place_fst_cons_alloc _ _ _ hA]
      simp only [List.getD_cons_zero, alloc_code]
      omega
    | succ i =>
      simp only [List.getD_cons_succ] at hA
      by_cases hAs : s.sh_flags &&& SHF_ALLOC ≠ 0
      · rw [place_fst_cons_alloc _ _ _ hAs]
        simp only [List.getD_cons_succ]
        refine ih (placeStep s st) i ?_ ?_ (by simpa using hi) hA
        · rw [placeStep_base]; exact hb
        · rw [placeStep_code_used]; exact align_up16_mod _
      · rw [place_fst_cons_skip _ _ _ hAs]
        simp only [List.getD_cons_succ]
        exact ih st i hb hu (by simpa using hi) hA

/-! ## Lemmas about the relocation engine -/

/-- A successful relocation step preserves the arena's base and capacity
and never shrinks the bump pointer. -/
theorem applyRel_ok_frame (resolver : String → Option Nat) (symtab : List Sym)
    (addrs : List Nat) (ha : Bool) (tb : Nat) (so : Bool) (r : Rel)
    (st : Arena) (k : Nat) (st' : Arena) (k' : Nat)
    (h : applyRel resolver symtab addrs ha tb so r st k = .ok (st', k')) :
    st'.base = st.base ∧ st'.capacity = st.capacity ∧
      st.code_used ≤ st'.code_used := by
  simp only [applyRel, alloc_code] at h
  repeat' split at h
  all_goals try exact Except.noConfusion h
  all_goals rw [Except.ok.injEq, Prod.mk.injEq] at h
  all_goals obtain ⟨h1, h2⟩ := h
  all_goals subst h1
  all_goals refine ⟨rfl, rfl, by simp⟩

/-- `applyRels` version of `applyRel_ok_frame`. -/
theorem applyRels_ok_frame (resolver : String → Option Nat) (symtab : List Sym)
    (addrs : List Nat) (ha : Bool) (tb : Nat) (so : Bool) (rs : List Rel)
    (st : Arena) (k : Nat) (st' : Arena) (k' : Nat)
    (h : applyRels resolver symtab addrs ha tb so rs st k = .ok (st', k')) :
    st'.base = st.base ∧ st'.capacity = st.capacity ∧
      st.code_used ≤ st'.code_used := by
  induction rs generalizing st k with
  | nil =>
    simp only [applyRels] at h
    rw [Except.ok.injEq, Prod.mk.injEq] at h
    obtain ⟨h1, h2⟩ := h
    subst h1
    exact ⟨rfl, rfl, le_refl _⟩
  | cons r rs ih =>
    simp only [applyRels] at h
    split at h
    · exact Except.noConfusion h
    · rename_i st1k1 heq
      obtain ⟨hb, hc, hu⟩ := applyRel_ok_frame _ _ _ _ _ _ _ _ _ _ _ heq
      obtain ⟨hb', hc', hu'⟩ := ih _ _ h
      exact ⟨hb'.trans hb, hc'.trans hc, le_trans hu hu'⟩

/-- `relocateGo` version of `applyRel_ok_frame`. -/
theorem relocateGo_ok_frame (resolver : String → Option Nat) (symtab : List Sym)
    (addrs : List Nat) (shdrs : List Shdr) (so : Bool) (ss : List Shdr)
    (st : Arena) (k : Nat) (st' : Arena) (k' : Nat)
    (h : relocateGo resolver symtab addrs shdrs so ss st k = .ok (st', k')) :
    st'.base = st.base ∧ st'.capacity = st.capacity ∧
      st.code_used ≤ st'.code_used := by
  induction ss generalizing st k with
  | nil =>
    simp only [relocateGo] at h
    rw [Except.ok.injEq, Prod.mk.injEq] at h
    obtain ⟨h1, h2⟩ := h
    subst h1
    exact ⟨rfl, rfl, le_refl _⟩
  | cons s ss ih =>
    simp only [relocateGo] at h
    split at h
    · split at h
      · exact Except.noConfusion h
      · rename_i st1k1 heq
        obtain ⟨hb, hc, hu⟩ := applyRels_ok_frame _ _ _ _ _ _ _ _ _ _ _ heq
        obtain ⟨hb', hc', hu'⟩ := ih _ _ h
        exact ⟨hb'.trans hb, hc'.trans hc, le_trans hu hu'⟩
    · exact ih _ _ h

/-- A successful `relocate` preserves base and capacity and never shrinks
the bump pointer. -/
theorem relocate_ok_frame (resolver : String → Option Nat) (file : ElfFile)
    (symtab : List Sym) (addrs : List Nat) (so : Bool) (st st' : Arena)
    (k' : Nat)
    (h : relocate resolver file symtab addrs so st = .ok (st', k')) :
    st'.base = st.base ∧ st'.capacity = st.capacity ∧
      st.code_used ≤ st'.code_used :=
  relocateGo_ok_frame _ _ _ _ _ _ _ _ _ _ h

/-! ## Lemmas about sizing mode -/

/-- In sizing mode a handled relocation leaves the arena untouched and
adds exactly its reservation. -/
theorem applyRel_sizing_handled (resolver : String → Option Nat)
    (symtab : List Sym) (addrs : List Nat) (ha : Bool) (tb : Nat) (r : Rel)
    (st : Arena) (k : Nat) (h : relTypeHandled r.r_type) :
    applyRel resolver symtab addrs ha tb true r st k =
      .ok (st, k + relSizingBytes r) := by
  unfold relTypeHandled at h
  simp only [applyRel, relSizingBytes, if_pos]
  rcases h with h | h | h | h <;> simp [h, R_X86_64_64, R_X86_64_PC32,
    R_X86_64_PLT32, R_X86_64_REX_GOTPCRELX]

/-- In sizing mode an unhandled relocation fails with the
`Unknown reloc` message, leaving the arena untouched. -/
theorem applyRel_sizing_unknown (resolver : String → Option Nat)
    (symtab : List Sym) (addrs : List Nat) (ha : Bool) (tb : Nat) (r : Rel)
    (st : Arena) (k : Nat) (h : ¬ relTypeHandled r.r_type) :
    applyRel resolver symtab addrs ha tb true r st k =
      .error ("Unknown reloc: " ++ toString r.r_type, st) := by
  unfold relTypeHandled at h
  push_neg at h
  obtain ⟨h1, h2, h3, h4⟩ := h
  simp only [applyRel, if_pos]
  rw [if_neg h1, if_neg h2, if_neg h3, if_neg h4]

/-- Sizing mode never consults the host resolver or the symbol table. -/
theorem applyRel_sizing_indep (r1 r2 : String → Option Nat)
    (sy1 sy2 : List Sym) (addrs : List Nat) (ha : Bool) (tb : Nat) (r : Rel)
    (st : Arena) (k : Nat) :
    applyRel r1 sy1 addrs ha tb true r st k =
      applyRel r2 sy2 addrs ha tb true r st k := rfl

theorem applyRels_sizing_indep (r1 r2 : String → Option Nat)
    (sy1 sy2 : List Sym) (addrs : List Nat) (ha : Bool) (tb : Nat)
    (rs : List Rel) (st : Arena) (k : Nat) :
    applyRels r1 sy1 addrs ha tb true rs st k =
      applyRels r2 sy2 addrs ha tb true rs st k := by
  induction rs generalizing st k with
  | nil => rfl
  | cons r rs ih =>
    simp only [applyRels]
    rw [applyRel_sizing_indep r1 r2 sy1 sy2]
    cases applyRel r2 sy2 addrs ha tb true r st k with
    | error e => rfl
    | ok p => exact ih p.1 p.2

theorem relocateGo_sizing_indep (r1 r2 : String → Option Nat)
    (sy1 sy2 : List Sym) (addrs : List Nat) (shdrs : List Shdr)
    (ss : List Shdr) (st : Arena) (k : Nat) :
    relocateGo r1 sy1 addrs shdrs true ss st k =
      relocateGo r2 sy2 addrs shdrs true ss st k := by
  induction ss generalizing st k with
  | nil => rfl
  | cons s ss ih =>
    simp only [relocateGo]
    split
    · rw [applyRels_sizing_indep r1 r2 sy1 sy2]
      cases applyRels r2 sy2 addrs (s.sh_type == SHT_RELA)
          (addrs.getD s.sh_info 0) true s.rels st k with
      | error e => rfl
      | ok p => exact ih p.1 p.2
    · exact ih st k

/-- `consideredB` agrees with the skip condition of the engine's outer
loop. -/
theorem consideredB_iff (shdrs : List Shdr) (s : Shdr) :
    consideredB shdrs s = true ↔
      ((s.sh_type = SHT_REL ∨ s.sh_type = SHT_RELA) ∧
        (shdrs.getD s.sh_info default).sh_flags &&& SHF_ALLOC ≠ 0) := by
  simp [consideredB, Bool.and_eq_true, Bool.or_eq_true, beq_iff_eq, bne_iff_ne]

/-- In sizing mode, when every reachable relocation is handled,
`applyRels` returns the untouched arena plus the summed reservations. -/
theorem applyRels_sizing_sum (resolver : String → Option Nat)
    (symtab : List Sym) (addrs : List Nat) (ha : Bool) (tb : Nat)
    (rs : List Rel) (st : Arena) (k : Nat)
    (h : ∀ r ∈ rs, relTypeHandled r.r_type) :
    applyRels resolver symtab addrs ha tb true rs st k =
      .ok (st, k + (rs.map relSizingBytes).sum) := by
  induction rs generalizing k with
  | nil => simp [applyRels]
  | cons r rs ih =>
    simp only [applyRels]
    rw [applyRel_sizing_handled _ _ _ _ _ _ _ _ (h r (List.mem_cons_self _ _))]
    have hrec := ih (k + relSizingBytes r)
      (fun x hx => h x (List.mem_cons_of_mem _ hx))
    refine hrec.trans ?_
    refine congrArg (fun n =>
      (Except.ok (st, n) : Except (String × Arena) (Arena × Nat))) ?_
    simp only [List.map_cons, List.sum_cons]
    omega

/-- In sizing mode, an unhandled relocation in the list makes `applyRels`
fail, with the arena state at the failure point untouched. -/
theorem applyRels_sizing_err (resolver : String → Option Nat)
    (symtab : List Sym) (addrs : List Nat) (ha : Bool) (tb : Nat)
    (rs : List Rel) (st : Arena) (k : Nat)
    (h : ¬ ∀ r ∈ rs, relTypeHandled r.r_type) :
    ∃ msg, applyRels resolver symtab addrs ha tb true rs st k =
      .error (msg, st) := by
  induction rs generalizing k with
  | nil => exact absurd (by simp) h
  | cons r rs ih =>
    by_cases hr : relTypeHandled r.r_type
    · have htail : ¬ ∀ x ∈ rs, relTypeHandled x.r_type := by
        intro hall
        exact h (by
          intro x hx
          rcases List.mem_cons.1 hx with hx | hx
          · exact hx ▸ hr
          · exact hall x hx)
      simp only [applyRels]
      rw [applyRel_sizing_handled _ _ _ _ _ _ _ _ hr]
      exact ih _ htail
    · simp only [applyRels]
      rw [applyRel_sizing_unknown _ _ _ _ _ _ _ _ hr]
      exact ⟨_, rfl⟩

/-- In sizing mode, when every relocation in every driven-over section is
handled, `relocateGo` returns the untouched arena plus the spec's sum. -/
theorem relocateGo_sizing_sum (resolver : String → Option Nat)
    (symtab : List Sym) (addrs : List Nat) (shdrs : List Shdr)
    (ss : List Shdr) (st : Arena) (k : Nat)
    (h : ∀ s ∈ ss, consideredB shdrs s = true →
      ∀ r ∈ s.rels, relTypeHandled r.r_type) :
    relocateGo resolver symtab addrs shdrs true ss st k =
      .ok (st, k + ((ss.filter (consideredB shdrs)).map
        (fun s => (s.rels.map relSizingBytes).sum)).sum) := by
  induction ss generalizing k with
  | nil => simp [relocateGo]
  | cons s ss ih =>
    simp only [relocateGo]
    split
    · rename_i hc
      have hcB : consideredB shdrs s = true := (consideredB_iff shdrs s).2 hc
      rw [applyRels_sizing_sum _ _ _ _ _ _ _ _
        (h s (List.mem_cons_self _ _) hcB)]
      have hrec := ih (k + (s.rels.map relSizingBytes).sum)
        (fun x hx hxc => h x (List.mem_cons_of_mem _ hx) hxc)
      refine hrec.trans ?_
      refine congrArg (fun n =>
        (Except.ok (st, n) : Except (String × Arena) (Arena × Nat))) ?_
      simp only [List.filter_cons, hcB, if_true, List.map_cons, List.sum_cons]
      omega
    · rename_i hc
      have hcB : consideredB shdrs s = false := by
        cases hb : consideredB shdrs s with
        | true => exact absurd ((consideredB_iff shdrs s).1 hb) hc
        | false => rfl
      rw [ih _ (fun x hx hxc => h x (List.mem_cons_of_mem _ hx) hxc)]
      simp [List.filter_cons, hcB]

/-- In sizing mode, an unhandled relocation in a driven-over section makes
`relocateGo` fail, with the arena untouched. -/
theorem relocateGo_sizing_err (resolver : String → Option Nat)
    (symtab : List Sym) (addrs : List Nat) (shdrs : List Shdr)
    (ss : List Shdr) (st : Arena) (k : Nat)
    (h : ¬ ∀ s ∈ ss, consideredB shdrs s = true →
      ∀ r ∈ s.rels, relTypeHandled r.r_type) :
    ∃ msg, relocateGo resolver symtab addrs shdrs true ss st k =
      .error (msg, st) := by
  induction ss generalizing k with
  | nil => exact absurd (by simp) h
  | cons s ss ih =>
    simp only [relocateGo]
    split
    · rename_i hc
      have hcB : consideredB shdrs s = true := (consideredB_iff shdrs s).2 hc
      by_cases hall : ∀ r ∈ s.rels, relTypeHandled r.r_type
      · have htail : ¬ ∀ x ∈ ss, consideredB shdrs x = true →
            ∀ r ∈ x.rels, relTypeHandled r.r_type := by
          intro hT
          exact h (by
            intro x hx hxc
            rcases List.mem_cons.1 hx with hx | hx
            · exact hx ▸ hall
            · exact hT x hx hxc)
        rw [applyRels_sizing_sum _ _ _ _ _ _ _ _ hall]
        exact ih _ htail
      · obtain ⟨msg, hmsg⟩ := applyRels_sizing_err resolver symtab addrs
          (s.sh_type == SHT_RELA) (addrs.getD s.sh_info 0) s.rels st k hall
        rw [hmsg]
        exact ⟨msg, rfl⟩
    · rename_i hc
      have hcB : ¬ consideredB shdrs s = true := fun hb =>
        hc ((consideredB_iff shdrs s).1 hb)
      refine ih _ ?_
      intro hT
      exact h (by
        intro x hx hxc
        rcases List.mem_cons.1 hx with hx | hx
        · exact absurd (hx ▸ hxc) hcB
        · exact hT x hx hxc)

/-- `relocate` in sizing mode does not depend on the host resolver or the
symbol table, so unresolved externals and unsupported symbol kinds go
undetected. -/
theorem relocate_sizing_indep (r1 r2 : String → Option Nat)
    (sy1 sy2 : List Sym) (addrs : List Nat) (file : ElfFile) (st : Arena) :
    relocate r1 file sy1 addrs true st = relocate r2 file sy2 addrs true st :=
  relocateGo_sizing_indep r1 r2 sy1 sy2 addrs file.shdrs file.shdrs st 0

/-- `relocate` in sizing mode, all relocation types handled: the arena is
returned untouched together with the spec's byte count. -/
theorem relocate_sizing_sum (resolver : String → Option Nat)
    (symtab : List Sym) (addrs : List Nat) (file : ElfFile) (st : Arena)
    (h : allRelsHandled file) :
    relocate resolver file symtab addrs true st =
      .ok (st, specSizingBytes file) := by
  unfold relocate specSizingBytes
  rw [relocateGo_sizing_sum _ _ _ _ _ _ _ h]
  rw [Nat.zero_add]

/-- `relocate` in sizing mode still fails on an unknown relocation type,
leaving the arena untouched. -/
theorem relocate_sizing_err (resolver : String → Option Nat)
    (symtab : List Sym) (addrs : List Nat) (file : ElfFile) (st : Arena)
    (h : ¬ allRelsHandled file) :
    ∃ msg, relocate resolver file symtab addrs true st =
      .error (msg, st) :=
  relocateGo_sizing_err resolver symtab addrs file.shdrs file.shdrs st 0 h

/-! ## Lemmas about `load_object` and `objopen` -/

/-- A relocation-engine failure propagates out of `load_object`. -/
theorem load_object_of_relocate_error (resolver : String → Option Nat)
    (file : ElfFile) (st : Arena) (es : String × Arena)
    (h : relocate resolver file
        (rewriteSymtab (place file.shdrs st).1 (findSymtab file.shdrs []))
        (place file.shdrs st).1 false (place file.shdrs st).2 = .error es) :
    load_object resolver file st = .error es := by
  simp only [load_object]
  rw [h]

/-- A relocation-engine success yields the emitted symbol index and the
engine's final arena. -/
theorem load_object_of_relocate_ok (resolver : String → Option Nat)
    (file : ElfFile) (st st2 : Arena) (k : Nat)
    (h : relocate resolver file
        (rewriteSymtab (place file.shdrs st).1 (findSymtab file.shdrs []))
        (place file.shdrs st).1 false (place file.shdrs st).2 = .ok (st2, k)) :
    load_object resolver file st =
      .ok ({ symbols := (emitSymbols (place file.shdrs st).1
        (findSymtab file.shdrs [])) }, st2) := by
  simp only [load_object]
  rw [h]

/-- `objopen` on a buffer with a valid magic defers to `load_object`,
propagating a failure's message into the error slot. -/
theorem objopen_of_load_error (resolver : String → Option Nat)
    (fname : String) (file : ElfFile) (st : Arena) (err : String)
    (e : String) (stE : Arena)
    (hm : file.ident.take 4 = ELFMAG)
    (h : load_object resolver file st = .error (e, stE)) :
    objopen resolver fname file st err = (none, stE, e) := by
  unfold objopen
  rw [if_pos hm, h]

/-- `objopen` on a buffer with a valid magic, successful load. -/
theorem objopen_of_load_ok (resolver : String → Option Nat)
    (fname : String) (file : ElfFile) (st : Arena) (err : String)
    (hd : obj_handle) (st1 : Arena)
    (hm : file.ident.take 4 = ELFMAG)
    (h : load_object resolver file st = .ok (hd, st1)) :
    objopen resolver fname file st err = (some hd, st1, err) := by
  unfold objopen
  rw [if_pos hm, h]

/-- Inversion: a returned handle means the magic was valid and
`load_object` succeeded with exactly this handle and arena. -/
theorem objopen_some_inv (resolver : String → Option Nat) (fname : String)
    (file : ElfFile) (st : Arena) (err : String) (hd : obj_handle)
    (st1 : Arena) (err1 : String)
    (h : objopen resolver fname file st err = (some hd, st1, err1)) :
    file.ident.take 4 = ELFMAG ∧
      load_object resolver file st = .ok (hd, st1) := by
  unfold objopen at h
  by_cases hm : file.ident.take 4 = ELFMAG
  · rw [if_pos hm] at h
    refine ⟨hm, ?_⟩
    cases hl : load_object resolver file st with
    | error es =>
      obtain ⟨e, stE⟩ := es
      rw [hl] at h
      simp at h
    | ok p =>
      obtain ⟨hd', st1'⟩ := p
      rw [hl] at h
      simp only [Prod.mk.injEq, Option.some.injEq] at h
      obtain ⟨h1, h2, h3⟩ := h
      rw [h1, h2]
  · rw [if_neg hm] at h
    simp at h

/-- Inversion of a successful `load_object`: the handle's symbol index is
the emitted one, and the final arena extends the placement arena. -/
theorem load_object_ok_inv (resolver : String → Option Nat) (file : ElfFile)
    (st : Arena) (hd : obj_handle) (st1 : Arena)
    (h : load_object resolver file st = .ok (hd, st1)) :
    hd.symbols = emitSymbols (place file.shdrs st).1
      (findSymtab file.shdrs []) ∧
      st1.base = st.base ∧ st1.capacity = st.capacity ∧
      (place file.shdrs st).2.code_used ≤ st1.code_used := by
  simp only [load_object] at h
  cases hl : relocate resolver file
      (rewriteSymtab (place file.shdrs st).1 (findSymtab file.shdrs []))
      (place file.shdrs st).1 false (place file.shdrs st).2 with
  | error es =>
    rw [hl] at h
    exact Except.noConfusion h
  | ok p =>
    obtain ⟨st2, k⟩ := p
    rw [hl] at h
    simp only [Except.ok.injEq, Prod.mk.injEq] at h
    obtain ⟨h1, h2⟩ := h
    obtain ⟨hb, hc, hu⟩ := relocate_ok_frame _ _ _ _ _ _ _ _ hl
    subst h2
    refine ⟨by rw [← h1], ?_, ?_, hu⟩
    · rw [hb, place_base]
    · rw [hc, place_capacity]

/-! ## Lemmas about the heap model -/

theorem freeSymbolNames_mappings (st : HeapState) (ps : List Nat) :
    (freeSymbolNames st ps).mappings = st.mappings := by
  induction ps generalizing st with
  | nil => rfl
  | cons p ps ih =>
    simp only [freeSymbolNames]
    rw [ih]
    rfl

theorem freeSymbolNames_nodup (st : HeapState) (ps : List Nat)
    (h : st.allocs.Nodup) : (freeSymbolNames st ps).allocs.Nodup := by
  induction ps generalizing st with
  | nil => exact h
  | cons p ps ih => exact ih _ (h.erase p)

theorem freeSymbolNames_mem_allocs (st : HeapState) (ps : List Nat) (x : Nat)
    (h : st.allocs.Nodup) :
    x ∈ (freeSymbolNames st ps).allocs ↔ x ∈ st.allocs ∧ x ∉ ps := by
  induction ps generalizing st with
  | nil => simp [freeSymbolNames]
  | cons p ps ih =>
    simp only [freeSymbolNames]
    rw [ih _ (h.erase p)]
    simp only [freeAlloc, h.mem_erase_iff, List.mem_cons]
    constructor
    · rintro ⟨⟨hne, hmem⟩, hnotin⟩
      exact ⟨hmem, by rintro (rfl | hc) <;> [exact hne rfl; exact hnotin hc]⟩
    · rintro ⟨hmem, hnotin⟩
      exact ⟨⟨fun he => hnotin (Or.inl he), hmem⟩, fun hc => hnotin (Or.inr hc)⟩

/-! ## Lemmas about symbol lookup -/

/-- The `objsym` loop is `find?` on the symbol index. -/
theorem objsymGo_eq_find (name : String) (syms : List symbol) :
    objsymGo name syms =
      (syms.find? (fun s => s.name == name)).map symbol.addr := by
  induction syms with
  | nil => rfl
  | cons s ss ih =>
    by_cases h : s.name = name
    · simp [objsymGo, h, List.find?_cons_of_pos]
    · rw [List.find?_cons_of_neg _ (by simpa using h)]
      simpa [objsymGo, h] using ih

/-- A successful lookup returns the address of some record of the index. -/
theorem objsymGo_mem (name : String) (syms : List symbol) (a : Nat)
    (h : objsymGo name syms = some a) :
    ∃ r ∈ syms, r.name = name ∧ r.addr = a := by
  induction syms with
  | nil => exact Option.noConfusion h
  | cons s ss ih =>
    by_cases hs : s.name = name
    · refine ⟨s, List.mem_cons_self _ _, hs, ?_⟩
      simp only [objsymGo, if_pos hs, Option.some.injEq] at h
      exact h
    · simp only [objsymGo, if_neg hs] at h
      obtain ⟨r, hr, hrn, hra⟩ := ih h
      exact ⟨r, List.mem_cons_of_mem _ hr, hrn, hra⟩

/-- The `objsym` scan returns `none` when no record's name matches. -/
theorem objsymGo_none (name : String) (syms : List symbol)
    (h : ∀ r ∈ syms, r.name ≠ name) : objsymGo name syms = none := by
  induction syms with
  | nil => rfl
  | cons s ss ih =>
    simp only [objsymGo, if_neg (h s (List.mem_cons_self _ _))]
    exact ih (fun r hr => h r (List.mem_cons_of_mem _ hr))

/-- The `objsym` scan stops at the first matching record. -/
theorem objsymGo_first (name : String) (pre post : List symbol) (r : symbol)
    (hr : r.name = name) (hpre : ∀ x ∈ pre, x.name ≠ name) :
    objsymGo name (pre ++ r :: post) = some r.addr := by
  induction pre with
  | nil => simp [objsymGo, hr]
  | cons s ss ih =>
    simp only [List.cons_append, objsymGo,
      if_neg (hpre s (List.mem_cons_self _ _))]
    exact ih (fun x hx => hpre x (List.mem_cons_of_mem _ hx))

/-- Every record of the emitted symbol index comes from an
`STT_OBJECT`/`STT_FUNC` entry of the symbol table, with the address
`addrs[st_shndx] + st_value`. -/
theorem emitSymbols_mem (addrs : List Nat) (symtab : List Sym) (r : symbol)
    (h : r ∈ emitSymbols addrs symtab) :
    ∃ sy ∈ symtab, (sy.st_type = STT_OBJECT ∨ sy.st_type = STT_FUNC) ∧
      r.name = sy.st_name ∧ r.addr = addrs.getD sy.st_shndx 0 + sy.st_value := by
  induction symtab with
  | nil => exact absurd h (List.not_mem_nil r)
  | cons sy sys ih =>
    simp only [emitSymbols] at h
    split at h
    · rename_i hty
      rcases List.mem_cons.1 h with h | h
      · exact ⟨sy, List.mem_cons_self _ _, hty, by rw [h], by rw [h]⟩
      · obtain ⟨sy', hm, hty', hn, ha⟩ := ih h
        exact ⟨sy', List.mem_cons_of_mem _ hm, hty', hn, ha⟩
    · obtain ⟨sy', hm, hty', hn, ha⟩ := ih h
      exact ⟨sy', List.mem_cons_of_mem _ hm, hty', hn, ha⟩

/-- Ground values of the allocatable-flag test, checked by the kernel
(`&&&` on literals does not reduce in the elaborator). -/
theorem land_6_2 : (6 : Nat) &&& 2 = 2 := by decide

theorem land_0_2 : (0 : Nat) &&& 2 = 0 := by decide

theorem land_3_2 : (3 : Nat) &&& 2 = 2 := by decide

/-- A 32-bit signed truncation is the identity on in-range values. -/
theorem toInt32_eq_self (v : Int) (h1 : -2147483648 ≤ v)
    (h2 : v < 2147483648) : toInt32 v = v := by
  unfold toInt32
  rw [show (v + 2147483648).emod 4294967296 =
    (v + 2147483648) % 4294967296 from rfl]
  omega

/-- Byte-level contents after the `PLT32` trampoline writes followed by
the target fixup, when the 4-byte target word does not overlap the
14-byte trampoline. -/
theorem plt32_mem (m : Nat → Nat) (T target : Nat) (s : Nat) (d : Int)
    (hs : s < 18446744073709551616)
    (hdisj : target + 4 ≤ T ∨ T + 14 ≤ target) :
    u32add (writeU64 (writeU32 (writeByte (writeByte m T 0xff) (T + 1) 0x25)
        (T + 2) 0) (T + 6) s) target d T = 0xff ∧
    u32add (writeU64 (writeU32 (writeByte (writeByte m T 0xff) (T + 1) 0x25)
        (T + 2) 0) (T + 6) s) target d (T + 1) = 0x25 ∧
    readU32 (u32add (writeU64 (writeU32 (writeByte (writeByte m T 0xff)
        (T + 1) 0x25) (T + 2) 0) (T + 6) s) target d) (T + 2) = 0 ∧
    readU64 (u32add (writeU64 (writeU32 (writeByte (writeByte m T 0xff)
        (T + 1) 0x25) (T + 2) 0) (T + 6) s) target d) (T + 6) = s ∧
    readU32 (u32add (writeU64 (writeU32 (writeByte (writeByte m T 0xff)
        (T + 1) 0x25) (T + 2) 0) (T + 6) s) target d) target =
      (((readU32 m target : Int) + d).emod 4294967296).toNat := by
  refine ⟨?_, ?_, ?_, ?_, ?_⟩
  · rw [u32add_outside _ _ _ _ (by omega)]
    rw [writeU64_outside _ _ _ _ (by omega)]
    rw [writeU32_outside _ _ _ _ (by omega)]
    rw [writeByte_ne _ _ _ _ (by omega)]
    exact writeByte_at _ _ _
  · rw [u32add_outside _ _ _ _ (by omega)]
    rw [writeU64_outside _ _ _ _ (by omega)]
    rw [writeU32_outside _ _ _ _ (by omega)]
    exact writeByte_at _ _ _
  · rw [readU32_congr _ (writeU32 (writeByte (writeByte m T 0xff) (T + 1) 0x25)
      (T + 2) 0) (T + 2) ?_]
    · rw [readU32_writeU32]
    · intro j hj
      rw [u32add_outside _ _ _ _ (by omega)]
      rw [writeU64_outside _ _ _ _ (by omega)]
  · rw [readU64_congr _ (writeU64 (writeU32 (writeByte (writeByte m T 0xff)
      (T + 1) 0x25) (T + 2) 0) (T + 6) s) (T + 6) ?_]
    · rw [readU64_writeU64]
      omega
    · intro j hj
      rw [u32add_outside _ _ _ _ (by omega)]
  · rw [readU32_u32add]
    have hagree : readU32 (writeU64 (writeU32 (writeByte (writeByte m T 0xff)
        (T + 1) 0x25) (T + 2) 0) (T + 6) s) target = readU32 m target := by
      refine readU32_congr _ _ _ ?_
      intro j hj
      rw [writeU64_outside _ _ _ _ (by omega)]
      rw [writeU32_outside _ _ _ _ (by omega)]
      rw [writeByte_ne _ _ _ _ (by omega)]
      rw [writeByte_ne _ _ _ _ (by omega)]
    rw [hagree]

/-- Evaluation of `objopen` on `objWithExtern name` when the resolver
does not know `name`: the open fails, the handle is absent, and the error
slot holds the whole `failed to resolve` message. -/
theorem objWithExtern_open_fails (name : String)
    (resolver : String → Option Nat) (fname : String) (st : Arena)
    (err : String) (h : resolver name = none) :
    objopen resolver fname (objWithExtern name) st err =
      (none, (place (objWithExtern name).shdrs st).2,
        "failed to resolve " ++ name) := by
  refine objopen_of_load_error _ _ _ _ _ _ _
    (by decide : ident64.take 4 = ELFMAG) ?_
  refine load_object_of_relocate_error _ _ _ _ ?_
  simp [objWithExtern, textShdr, nullShdr, nullSym, relocate, relocateGo,
    applyRels, applyRel, resolveSymAddr, rewriteSymtab, findSymtab, place,
    placeStep, alloc_code, align_code, SHT_SYMTAB, SHT_RELA, SHT_REL,
    SHT_NOBITS, SHF_ALLOC, SHN_UNDEF, STT_NOTYPE, STT_OBJECT, STT_FUNC,
    STT_SECTION, land_6_2, land_0_2, h]

/-! ## Claim theorems -/

/-- C7: `objsym` is a linear scan of the handle's symbol index with
byte-exact name comparison; it returns the first matching record's
address, `none` when no record matches, and on duplicate names the first
match in symbol-table order wins. -/
theorem c7_objsym_linear_scan :
    (∀ (h : obj_handle) (name : String),
      objsym h name =
        (h.symbols.find? (fun s => s.name == name)).map symbol.addr) ∧
    (∀ (h : obj_handle) (name : String),
      (∀ r ∈ h.symbols, r.name ≠ name) → objsym h name = none) ∧
    (∀ (pre post : List symbol) (r : symbol) (name : String),
      r.name = name → (∀ x ∈ pre, x.name ≠ name) →
      objsym ⟨pre ++ r :: post⟩ name = some r.addr) := by
  refine ⟨?_, ?_, ?_⟩
  · intro h name
    exact objsymGo_eq_find name h.symbols
  · intro h name hnone
    exact objsymGo_none name h.symbols hnone
  · intro pre post r name hr hpre
    exact objsymGo_first name pre post r hr hpre

/-- C7 witness: on an index with a duplicate name, lookup returns the
first record's address, and a missing name gives `none`. -/
theorem c7_objsym_linear_scan_witness :
    objsym ⟨[⟨"a", 11⟩, ⟨"b", 22⟩, ⟨"b", 33⟩]⟩ "b" = some 22 ∧
    objsym ⟨[⟨"a", 11⟩]⟩ "zz" = none := by
  constructor
  · exact c7_objsym_linear_scan.2.2 [⟨"a", 11⟩] [⟨"b", 33⟩] ⟨"b", 22⟩ "b" rfl
      (by decide)
  · exact c7_objsym_linear_scan.2.1 ⟨[⟨"a", 11⟩]⟩ "zz" (by decide)

/-- C3 counterexample: an accepted object defining a function symbol in a
non-allocatable section (`st_shndx = SHN_UNDEF`): the placement map holds
the NULL sentinel, so `sym` returns the bare `st_value` 1, which lies
below the arena base 4096. -/
theorem c3_counterexample :
    ((objopen emptyResolver "t.o" objWithStrayFunc arena0 "").1.map
      (fun h => objsym h "f")) = some (some 1) ∧
    arena0.base = 4096 ∧
    ¬ (arena0.base ≤ 1 ∧ 1 < arena0.base + arena0.capacity) := by
  refine ⟨by decide, rfl, by decide⟩

/-- C3 (amended): for an accepted object whose `STT_OBJECT`/`STT_FUNC`
symbols all live in allocatable sections with `st_value` inside the
section, and whose load leaves the bump pointer within capacity, every
address returned by `sym` satisfies
`arena.base ≤ s < arena.base + arena.capacity`. -/
theorem c3_sym_in_arena :
    ∀ (resolver : String → Option Nat) (fname : String) (file : ElfFile)
      (st : Arena) (err0 : String) (hd : obj_handle) (st1 : Arena)
      (err1 : String),
    objopen resolver fname file st err0 = (some hd, st1, err1) →
    st1.code_used ≤ st.capacity →
    (∀ sy ∈ findSymtab file.shdrs [],
      (sy.st_type = STT_OBJECT ∨ sy.st_type = STT_FUNC) →
      (file.shdrs.getD sy.st_shndx default).sh_flags &&& SHF_ALLOC ≠ 0 ∧
        sy.st_value < (file.shdrs.getD sy.st_shndx default).sh_size) →
    ∀ (name : String) (a : Nat), objsym hd name = some a →
      st.base ≤ a ∧ a < st.base + st.capacity := by
  intro resolver fname file st err0 hd st1 err1 hopen hcap hwf name a hsym
  obtain ⟨hm, hload⟩ := objopen_some_inv _ _ _ _ _ _ _ _ hopen
  obtain ⟨hsyms, hb1, hc1, hu1⟩ := load_object_ok_inv _ _ _ _ _ hload
  obtain ⟨r, hrmem, hrn, hra⟩ := objsymGo_mem name hd.symbols a hsym
  rw [hsyms] at hrmem
  obtain ⟨sy, hsymem, hty, hn, haddr⟩ := emitSymbols_mem _ _ _ hrmem
  obtain ⟨halloc, hval⟩ := hwf sy hsymem hty
  have hidx : sy.st_shndx < file.shdrs.length := by
    by_contra hge
    push_neg at hge
    rw [List.getD_eq_default _ _ hge] at halloc
    exact halloc (by decide)
  have hlb := place_addr_lb file.shdrs st sy.st_shndx hidx halloc
  have hext := place_extent file.shdrs st sy.st_shndx hidx halloc
  have ha : a = (place file.shdrs st).1.getD sy.st_shndx 0 + sy.st_value := by
    rw [← hra, haddr]
  subst ha
  constructor
  · omega
  · have hfin : (place file.shdrs st).2.code_used ≤ st.capacity :=
      le_trans hu1 hcap
    omega

/-- C3 witness: a well-formed object (8-byte `.text`, function symbol at
offset 4) loaded into a fresh arena at 4096: the returned address 4100
lies inside `[4096, 4096 + 2^30)`. -/
theorem c3_sym_in_arena_witness :
    arena0.base ≤ 4100 ∧ 4100 < arena0.base + arena0.capacity := by
  have h1 : (objopen emptyResolver "a.out" objWellFormed arena0 "").1 =
      some ⟨[⟨"f", 4100⟩]⟩ := by decide
  have hopen : objopen emptyResolver "a.out" objWellFormed arena0 "" =
      (some ⟨[⟨"f", 4100⟩]⟩,
        (objopen emptyResolver "a.out" objWellFormed arena0 "").2.1,
        (objopen emptyResolver "a.out" objWellFormed arena0 "").2.2) := by
    rw [← h1]
  exact c3_sym_in_arena emptyResolver "a.out" objWellFormed arena0 ""
    ⟨[⟨"f", 4100⟩]⟩ _ _ hopen (by decide) (by decide) "f" 4100 (by decide)

/-- C4: during Pass 2 every allocatable `SHT_NOBITS` section is placed as
a region of all-zero bytes of the section's size, every other allocatable
section's bytes are copied verbatim from the source buffer, and sections
are placed in section-index order at 16-byte-aligned bases. -/
theorem c4_placement :
    ∀ (ss : List Shdr) (st : Arena),
    (∀ s ∈ ss, s.sh_flags &&& SHF_ALLOC ≠ 0 → s.sh_type ≠ SHT_NOBITS →
      s.data.length = s.sh_size) →
    (∀ a, st.base + st.code_used ≤ a → st.mem a = 0) →
    st.base % 16 = 0 → st.code_used % 16 = 0 →
    ∀ i, i < ss.length → (ss.getD i default).sh_flags &&& SHF_ALLOC ≠ 0 →
    ((place ss st).1.getD i 0 % 16 = 0) ∧
    (∀ j, j < ss.length → i < j →
      (ss.getD j default).sh_flags &&& SHF_ALLOC ≠ 0 →
      (place ss st).1.getD i 0 + (ss.getD i default).sh_size ≤
        (place ss st).1.getD j 0) ∧
    ((ss.getD i default).sh_type = SHT_NOBITS →
      ∀ k, k < (ss.getD i default).sh_size →
      (place ss st).2.mem ((place ss st).1.getD i 0 + k) = 0) ∧
    (¬ (ss.getD i default).sh_type = SHT_NOBITS →
      ∀ k, k < (ss.getD i default).sh_size →
      (place ss st).2.mem ((place ss st).1.getD i 0 + k) =
        (ss.getD i default).data.getD k 0) := by
  intro ss st hwf hzero hb hu i hi hA
  have hwfle : ∀ s ∈ ss, s.sh_flags &&& SHF_ALLOC ≠ 0 →
      s.sh_type ≠ SHT_NOBITS → s.data.length ≤ s.sh_size :=
    fun s hs hsA hsN => le_of_eq (hwf s hs hsA hsN)
  refine ⟨place_aligned ss st i hb hu hi hA, ?_, ?_, ?_⟩
  · intro j hj hij hAj
    exact place_order ss st i j hij hj hA hAj
  · intro hN k hk
    exact place_mem_nobits ss st i k hwfle hzero hi hA hN hk
  · intro hN k hk
    have hklen : k < (ss.getD i default).data.length := by
      have hmem : ss.getD i default ∈ ss := by
        rw [List.getD_eq_getElem ss default hi]
        exact List.getElem_mem hi
      have : (ss.getD i default).data.length = (ss.getD i default).sh_size :=
        hwf _ hmem hA hN
      omega
    exact place_mem_copy ss st i k hwfle hi hA hN hklen

/-- C4 witness: a 4-byte initialized section and a 4-byte BSS section
placed into a fresh arena: copied byte, zero byte, 16-byte alignment and
index order are all as claimed. -/
theorem c4_placement_witness :
    (place [nullShdr, ⟨1, 6, 4, 0, 0, [9, 8, 7, 5], [], []⟩,
      ⟨8, 3, 4, 0, 0, [], [], []⟩] arena0).2.mem
      ((place [nullShdr, ⟨1, 6, 4, 0, 0, [9, 8, 7, 5], [], []⟩,
        ⟨8, 3, 4, 0, 0, [], [], []⟩] arena0).1.getD 1 0 + 2) = 7 ∧
    (place [nullShdr, ⟨1, 6, 4, 0, 0, [9, 8, 7, 5], [], []⟩,
      ⟨8, 3, 4, 0, 0, [], [], []⟩] arena0).2.mem
      ((place [nullShdr, ⟨1, 6, 4, 0, 0, [9, 8, 7, 5], [], []⟩,
        ⟨8, 3, 4, 0, 0, [], [], []⟩] arena0).1.getD 2 0 + 0) = 0 ∧
    (place [nullShdr, ⟨1, 6, 4, 0, 0, [9, 8, 7, 5], [], []⟩,
      ⟨8, 3, 4, 0, 0, [], [], []⟩] arena0).1.getD 2 0 % 16 = 0 ∧
    (place [nullShdr, ⟨1, 6, 4, 0, 0, [9, 8, 7, 5], [], []⟩,
      ⟨8, 3, 4, 0, 0, [], [], []⟩] arena0).1.getD 1 0 + 4 ≤
      (place [nullShdr, ⟨1, 6, 4, 0, 0, [9, 8, 7, 5], [], []⟩,
        ⟨8, 3, 4, 0, 0, [], [], []⟩] arena0).1.getD 2 0 := by
  have h1 := c4_placement [nullShdr, ⟨1, 6, 4, 0, 0, [9, 8, 7, 5], [], []⟩,
    ⟨8, 3, 4, 0, 0, [], [], []⟩] arena0 (by decide) (fun a _ => rfl)
    (by decide) (by decide) 1 (by decide) (by decide)
  have h2 := c4_placement [nullShdr, ⟨1, 6, 4, 0, 0, [9, 8, 7, 5], [], []⟩,
    ⟨8, 3, 4, 0, 0, [], [], []⟩] arena0 (by decide) (fun a _ => rfl)
    (by decide) (by decide) 2 (by decide) (by decide)
  exact ⟨h1.2.2.2 (by decide) 2 (by decide), h2.2.2.1 (by decide) 0 (by decide),
    h2.1, h1.2.1 2 (by decide) (by decide) (by decide)⟩

/-- C5: `objclose` always returns 0 (never reports failure), releases the
handle's arena mapping when the handle owns one, removes every symbol
name allocation and the handle allocation from the heap, and touches no
other mapping or allocation. -/
theorem c5_objclose_releases :
    ∀ (st : HeapState) (h : HandleRes),
    st.allocs.Nodup → st.mappings.Nodup →
    (objclose st h).1 = 0 ∧
    (∀ m, h.code = some m → m ∉ (objclose st h).2.mappings) ∧
    (∀ p ∈ h.names, p ∉ (objclose st h).2.allocs) ∧
    h.self ∉ (objclose st h).2.allocs ∧
    (∀ m ∈ st.mappings, (∀ cm, h.code = some cm → m ≠ cm) →
      m ∈ (objclose st h).2.mappings) ∧
    (∀ p ∈ st.allocs, p ∉ h.names → p ≠ h.self →
      p ∈ (objclose st h).2.allocs) := by
  intro st h hA hM
  have hall1 : (match h.code with
      | some m => munmapOp st m
      | none => st).allocs = st.allocs := by
    cases h.code <;> rfl
  have hmap1 : ∀ m, m ∈ (match h.code with
      | some m => munmapOp st m
      | none => st).mappings ↔
      (m ∈ st.mappings ∧ ∀ cm, h.code = some cm → m ≠ cm) := by
    intro m
    cases hc : h.code with
    | none => simp
    | some cm =>
      simp only [munmapOp, hM.mem_erase_iff, Option.some.injEq]
      constructor
      · rintro ⟨hne, hmem⟩
        exact ⟨hmem, fun cm' hcm' => by rw [← hcm']; exact hne⟩
      · rintro ⟨hmem, hne⟩
        exact ⟨hne cm rfl, hmem⟩
  have hA1 : (match h.code with
      | some m => munmapOp st m
      | none => st).allocs.Nodup := by rw [hall1]; exact hA
  refine ⟨rfl, ?_, ?_, ?_, ?_, ?_⟩
  · intro m hm
    simp only [objclose, freeAlloc, freeSymbolNames_mappings]
    intro hmem
    exact (((hmap1 m).1 hmem).2 m hm) rfl
  · intro p hp
    simp only [objclose, freeAlloc]
    intro hmem
    have hmem2 := List.mem_of_mem_erase hmem
    rw [freeSymbolNames_mem_allocs _ _ _ hA1] at hmem2
    exact hmem2.2 hp
  · simp only [objclose, freeAlloc]
    exact (freeSymbolNames_nodup _ _ hA1).not_mem_erase
  · intro m hmem hne
    simp only [objclose, freeAlloc, freeSymbolNames_mappings]
    exact (hmap1 m).2 ⟨hmem, hne⟩
  · intro p hp hpn hps
    simp only [objclose, freeAlloc]
    have hnd2 := freeSymbolNames_nodup _ h.names hA1
    rw [hnd2.mem_erase_iff]
    refine ⟨hps, ?_⟩
    rw [freeSymbolNames_mem_allocs _ _ _ hA1, hall1]
    exact ⟨hp, hpn⟩

/-- A concrete heap and handle for the close witness. -/
def heap0 : HeapState := ⟨[(4096, 8192), (90, 1)], [7, 8, 9, 10]⟩

/-- The resources of a concrete handle: one mapping, two names, itself. -/
def hres0 : HandleRes := ⟨some (4096, 8192), [7, 8], 9⟩

/-- C5 witness: a concrete handle owning a mapping, two names and its own
allocation, closed over a concrete heap. -/
theorem c5_objclose_releases_witness :
    (objclose heap0 hres0).1 = 0 ∧
    (4096, 8192) ∉ (objclose heap0 hres0).2.mappings ∧
    (7 : Nat) ∉ (objclose heap0 hres0).2.allocs ∧
    (10 : Nat) ∈ (objclose heap0 hres0).2.allocs := by
  have hc := c5_objclose_releases heap0 hres0 (by decide) (by decide)
  exact ⟨hc.1, hc.2.1 _ rfl, hc.2.2.1 7 (by decide),
    hc.2.2.2.2.2 10 (by decide) (by decide) (by decide)⟩

/-- C6 counterexample: a buffer with the correct magic but `EI_CLASS`
= `ELFCLASS32`, mismatching the 64-bit host, is accepted by `objopen`,
which neither returns an absent handle nor writes the error slot. -/
theorem c6_counterexample :
    objWrongClass.ident.take 4 = ELFMAG ∧
    objWrongClass.ident.getD 4 0 ≠ hostElfClass ∧
    (objopen emptyResolver "a.out" objWrongClass arena0 "").1.isSome = true ∧
    (objopen emptyResolver "a.out" objWrongClass arena0 "").2.2 = "" := by
  refine ⟨by decide, by decide, by decide, by decide⟩

/-- C6 (amended): `objopen` validates only the 4-byte ELF magic: a magic
mismatch returns an absent handle with the error slot set to
`"<file> is not ELF"`, and the result never depends on the `EI_CLASS`
byte (or anything else in `e_ident` beyond the first four bytes). -/
theorem c6_validates_magic_only :
    (∀ (resolver : String → Option Nat) (fname : String) (file : ElfFile)
      (st : Arena) (err : String),
      ¬ file.ident.take 4 = ELFMAG →
      objopen resolver fname file st err = (none, st, fname ++ " is not ELF")) ∧
    (∀ (resolver : String → Option Nat) (fname : String) (i1 i2 : List Nat)
      (shdrs : List Shdr) (st : Arena) (err : String),
      i1.take 4 = i2.take 4 →
      objopen resolver fname ⟨i1, shdrs⟩ st err =
        objopen resolver fname ⟨i2, shdrs⟩ st err) := by
  constructor
  · intro resolver fname file st err h
    unfold objopen
    rw [if_neg h]
  · intro resolver fname i1 i2 shdrs st err h
    unfold objopen
    by_cases hm : i1.take 4 = ELFMAG
    · rw [if_pos hm, if_pos (by rw [← h]; exact hm)]
      rfl
    · rw [if_neg hm, if_neg (by rw [← h]; exact hm)]

/-- C6 witness: a magic mismatch produces the `is not ELF` error, and an
`EI_CLASS` flip does not change the result of `objopen`. -/
theorem c6_validates_magic_only_witness :
    objopen emptyResolver "x.o" { ident := [1, 2, 3, 4], shdrs := [nullShdr] }
      arena0 "" = (none, arena0, "x.o is not ELF") ∧
    objopen emptyResolver "a.out" { ident := ident64, shdrs := [nullShdr] }
      arena0 "" =
      objopen emptyResolver "a.out" objWrongClass arena0 "" := by
  constructor
  · exact c6_validates_magic_only.1 emptyResolver "x.o" _ arena0 "" (by decide)
  · exact c6_validates_magic_only.2 emptyResolver "a.out" ident64
      objWrongClass.ident [nullShdr] arena0 "" (by decide)

/-- C9: the error message for an unresolved 300-byte symbol name is
written whole — 318 bytes for a 256-byte slot; `sprintf` into
`obj_error[256]` performs no truncation. -/
theorem c9_sprintf_overflow :
    (objopen emptyResolver "t.o" (objWithExtern longSymName) arena0 "").2.2 =
      "failed to resolve " ++ longSymName ∧
    ("failed to resolve " ++ longSymName).length = 318 ∧
    OBJ_ERROR_CAPACITY <
      ((objopen emptyResolver "t.o" (objWithExtern longSymName)
        arena0 "").2.2).length := by
  have hopen := objWithExtern_open_fails longSymName emptyResolver "t.o"
    arena0 "" rfl
  have hlen : ("failed to resolve " ++ longSymName).length = 318 := by
    rw [String.length_append]
    simp only [longSymName, String.length_mk, List.length_replicate]
    decide
  refine ⟨by rw [hopen], hlen, ?_⟩
  rw [hopen]
  simp only [hlen, OBJ_ERROR_CAPACITY]
  omega

/-- C2 counterexample: a relocation whose symbol is no-type and undefined
(`totally unknown` to the resolver) sits in a relocation section whose
target section is not allocatable; the engine skips it, so `objopen`
succeeds and the error slot is never written — the claim's "open fails"
is violated for this relocation. -/
theorem c2_counterexample :
    ((objWithSkippedExtern.shdrs.getD 4 default).syms.getD 1
      default).st_type = STT_NOTYPE ∧
    ((objWithSkippedExtern.shdrs.getD 4 default).syms.getD 1
      default).st_shndx = SHN_UNDEF ∧
    emptyResolver ((objWithSkippedExtern.shdrs.getD 4 default).syms.getD 1
      default).st_name = none ∧
    ((objWithSkippedExtern.shdrs.getD 3 default).rels.getD 0
      default).r_sym = 1 ∧
    (objopen emptyResolver "t.o" objWithSkippedExtern arena0 "").1.isSome =
      true ∧
    (objopen emptyResolver "t.o" objWithSkippedExtern arena0 "").2.2 = "" := by
  refine ⟨by decide, by decide, rfl, by decide, by decide, by decide⟩

/-- C2 (amended): for every relocation the engine processes (in a
REL/RELA section whose target section is allocatable) whose symbol has no
type and is undefined, the symbol address is the host resolver's answer
for the symbol's name; when the resolver reports absence the engine
fails with `failed to resolve <name>`, and `objopen` returns an absent
handle with that message in the error slot. -/
theorem c2_unresolved_external :
    (∀ (resolver : String → Option Nat) (addrs : List Nat) (sym : Sym),
      sym.st_type = STT_NOTYPE → sym.st_shndx = SHN_UNDEF →
      resolveSymAddr resolver addrs sym =
        (match resolver sym.st_name with
         | some a => .ok a
         | none => .error ("failed to resolve " ++ sym.st_name))) ∧
    (∀ (name : String) (resolver : String → Option Nat) (fname : String)
      (st : Arena) (err : String),
      resolver name = none →
      (objopen resolver fname (objWithExtern name) st err).1 = none ∧
      (objopen resolver fname (objWithExtern name) st err).2.2 =
        "failed to resolve " ++ name) := by
  constructor
  · intro resolver addrs sym hty hsh
    unfold resolveSymAddr
    rw [if_neg (by rw [hty]; decide), if_neg (by rw [hty]; decide),
      if_pos hty, if_pos hsh]
  · intro name resolver fname st err h
    rw [objWithExtern_open_fails name resolver fname st err h]
    exact ⟨rfl, rfl⟩

/-- C2 witness: the S6 scenario — an object referencing the undefined
`totally_unknown_sym` that the resolver cannot find: `objopen` returns
absence and the error slot holds
`failed to resolve totally_unknown_sym`. -/
theorem c2_unresolved_external_witness :
    (objopen emptyResolver "t.o" (objWithExtern "totally_unknown_sym")
      arena0 "").1 = none ∧
    (objopen emptyResolver "t.o" (objWithExtern "totally_unknown_sym")
      arena0 "").2.2 = "failed to resolve totally_unknown_sym" ∧
    resolveSymAddr emptyResolver [0] ⟨"totally_unknown_sym", 0, 0, 0⟩ =
      .error "failed to resolve totally_unknown_sym" := by
  have h2 := c2_unresolved_external.2 "totally_unknown_sym" emptyResolver
    "t.o" arena0 "" rfl
  have h1 := c2_unresolved_external.1 emptyResolver [0]
    ⟨"totally_unknown_sym", 0, 0, 0⟩ rfl rfl
  refine ⟨h2.1, ?_, ?_⟩
  · rw [h2.2]
    rfl
  · rw [h1]
    rfl

/-- C8 counterexample: a relocation record of type 99 (not handled on
64-bit x86) in a relocation section whose target section is not
allocatable is skipped: `objopen` succeeds and no `Unknown reloc` error
occurs, violating the claim's universal "open fails". -/
theorem c8_counterexample :
    ¬ relTypeHandled 99 ∧
    ((objWithSkippedBadReloc.shdrs.getD 3 default).rels.getD 0
      default).r_type = 99 ∧
    (objopen emptyResolver "t.o" objWithSkippedBadReloc arena0 "").1.isSome =
      true ∧
    (objopen emptyResolver "t.o" objWithSkippedBadReloc arena0 "").2.2 =
      "" := by
  refine ⟨by decide, by decide, by decide, by decide⟩

/-- C8 (amended): for every relocation record the engine processes (in a
REL/RELA section with an allocatable target section) whose type is not
among ABS64/PC32/PLT32/REX_GOTPCRELX, the engine fails with
`Unknown reloc: <n>` (once the symbol dispatch has produced an address),
and `objopen` returns an absent handle with that message in the error
slot. -/
theorem c8_unknown_reloc :
    (∀ (resolver : String → Option Nat) (symtab : List Sym)
      (addrs : List Nat) (ha : Bool) (tb : Nat) (r : Rel) (st : Arena)
      (k : Nat) (s : Nat),
      ¬ relTypeHandled r.r_type →
      resolveSymAddr resolver addrs (symtab.getD r.r_sym default) = .ok s →
      applyRel resolver symtab addrs ha tb false r st k =
        .error ("Unknown reloc: " ++ toString r.r_type, st)) ∧
    (∀ (n : Nat) (resolver : String → Option Nat) (fname : String)
      (st : Arena) (err : String),
      ¬ relTypeHandled n →
      (objopen resolver fname (objWithRelocType n) st err).1 = none ∧
      (objopen resolver fname (objWithRelocType n) st err).2.2 =
        "Unknown reloc: " ++ toString n) := by
  constructor
  · intro resolver symtab addrs ha tb r st k s hun hres
    unfold relTypeHandled at hun
    push_neg at hun
    obtain ⟨h1, h2, h3, h4⟩ := hun
    simp only [applyRel, Bool.false_eq_true, if_false, hres]
    rw [if_neg h1, if_neg h2, if_neg h3, if_neg h4]
  · intro n resolver fname st err hun
    unfold relTypeHandled at hun
    push_neg at hun
    obtain ⟨h1, h2, h3, h4⟩ := hun
    have hopen : objopen resolver fname (objWithRelocType n) st err =
        (none, (place (objWithRelocType n).shdrs st).2,
          "Unknown reloc: " ++ toString n) := by
      refine objopen_of_load_error _ _ _ _ _ _ _
        (by decide : ident64.take 4 = ELFMAG) ?_
      refine load_object_of_relocate_error _ _ _ _ ?_
      simp [objWithRelocType, textShdr, nullShdr, nullSym, relocate,
        relocateGo, applyRels, applyRel, resolveSymAddr, rewriteSymtab,
        findSymtab, place, placeStep, alloc_code, align_code, SHT_SYMTAB,
        SHT_RELA, SHT_REL, SHT_NOBITS, SHF_ALLOC, SHN_UNDEF, STT_NOTYPE,
        STT_OBJECT, STT_FUNC, STT_SECTION, land_6_2, land_0_2,
        h1, h2, h3, h4]
    rw [hopen]
    exact ⟨rfl, rfl⟩

/-- C8 witness: opening an object with one type-99 relocation against an
allocatable `.text` fails with `Unknown reloc: 99`. -/
theorem c8_unknown_reloc_witness :
    (objopen emptyResolver "t.o" (objWithRelocType 99) arena0 "").1 = none ∧
    (objopen emptyResolver "t.o" (objWithRelocType 99) arena0 "").2.2 =
      "Unknown reloc: 99" := by
  have h := c8_unknown_reloc.2 99 emptyResolver "t.o" arena0 "" (by decide)
  refine ⟨h.1, ?_⟩
  rw [h.2]
  rfl

/-- C1: an applied `PLT32` relocation allocates a 14-byte trampoline at
the arena's bump pointer `T` holding `FF 25`, a 4-byte zero displacement,
and an 8-byte slot with the resolved symbol address `S`; the 32-bit word
at the relocation target is incremented by `(T - target) + addend`; and
sizing-only mode reserves exactly 14 bytes for the relocation. -/
theorem c1_plt32_trampoline :
    ∀ (resolver : String → Option Nat) (symtab : List Sym) (addrs : List Nat)
      (tb : Nat) (r : Rel) (st : Arena) (k : Nat) (s : Nat),
    r.r_type = R_X86_64_PLT32 →
    resolveSymAddr resolver addrs (symtab.getD r.r_sym default) = .ok s →
    s < 18446744073709551616 →
    -2147483648 ≤ r.r_addend → r.r_addend < 2147483648 →
    (tb + r.r_offset + 4 ≤ st.base + st.code_used ∨
      st.base + st.code_used + 14 ≤ tb + r.r_offset) →
    (isOkE (applyRel resolver symtab addrs true tb false r st k) = true ∧
     okSize (applyRel resolver symtab addrs true tb false r st k) = k ∧
     (okArena (applyRel resolver symtab addrs true tb false r st k) st).base =
       st.base ∧
     (okArena (applyRel resolver symtab addrs true tb false r st k)
       st).code_used = st.code_used + 14 ∧
     (okArena (applyRel resolver symtab addrs true tb false r st k) st).mem
       (st.base + st.code_used) = 0xff ∧
     (okArena (applyRel resolver symtab addrs true tb false r st k) st).mem
       (st.base + st.code_used + 1) = 0x25 ∧
     readU32 (okArena (applyRel resolver symtab addrs true tb false r st k)
       st).mem (st.base + st.code_used + 2) = 0 ∧
     readU64 (okArena (applyRel resolver symtab addrs true tb false r st k)
       st).mem (st.base + st.code_used + 6) = s ∧
     readU32 (okArena (applyRel resolver symtab addrs true tb false r st k)
       st).mem (tb + r.r_offset) =
       (((readU32 st.mem (tb + r.r_offset) : Int) +
         ((st.base + st.code_used : Int) - (tb + r.r_offset : Int) +
           r.r_addend)).emod 4294967296).toNat) ∧
    applyRel resolver symtab addrs true tb true r st k = .ok (st, k + 14) := by
  intro resolver symtab addrs tb r st k s hty hres hs ha1 ha2 hdisj
  simp only [List.getD_eq_getElem?_getD] at hres
  have happ : applyRel resolver symtab addrs true tb false r st k =
      .ok ({ base := st.base, capacity := st.capacity,
             code_used := st.code_used + 14,
             mem := u32add (writeU64 (writeU32 (writeByte (writeByte st.mem
               (st.base + st.code_used) 0xff) (st.base + st.code_used + 1)
               0x25) (st.base + st.code_used + 2) 0)
               (st.base + st.code_used + 6) s) (tb + r.r_offset)
               ((st.base + st.code_used : Int) - (tb + r.r_offset : Int) +
                 r.r_addend) }, k) := by
    simp [applyRel, alloc_code, hres, hty, R_X86_64_64, R_X86_64_PC32,
      R_X86_64_PLT32, toInt32_eq_self r.r_addend ha1 ha2]
  obtain ⟨hm1, hm2, hm3, hm4, hm5⟩ := plt32_mem st.mem
    (st.base + st.code_used) (tb + r.r_offset) s
    ((st.base + st.code_used : Int) - (tb + r.r_offset : Int) + r.r_addend)
    hs hdisj
  refine ⟨⟨?_, ?_, ?_, ?_, ?_, ?_, ?_, ?_, ?_⟩, ?_⟩
  · simp only [happ, isOkE]
  · simp only [happ, okSize]
  · simp only [happ, okArena]
  · simp only [happ, okArena]
  · simp only [happ, okArena]
    exact hm1
  · simp only [happ, okArena]
    exact hm2
  · simp only [happ, okArena]
    exact hm3
  · simp only [happ, okArena]
    exact hm4
  · simp only [happ, okArena]
    exact hm5
  · simp [applyRel, hty, R_X86_64_64, R_X86_64_PC32, R_X86_64_PLT32]

/-- C1 witness: a concrete `PLT32` relocation against a section symbol,
with the trampoline at 4096 and the target at 5000. -/
theorem c1_plt32_trampoline_witness :
    isOkE (applyRel (fun _ => some 77) [⟨"", 3, 1, 0⟩] [0, 5000] true 5000
      false ⟨0, 0, 4, 0⟩ arena0 0) = true ∧
    (okArena (applyRel (fun _ => some 77) [⟨"", 3, 1, 0⟩] [0, 5000] true 5000
      false ⟨0, 0, 4, 0⟩ arena0 0) arena0).mem 4096 = 0xff ∧
    readU64 (okArena (applyRel (fun _ => some 77) [⟨"", 3, 1, 0⟩] [0, 5000]
      true 5000 false ⟨0, 0, 4, 0⟩ arena0 0) arena0).mem 4102 = 5000 ∧
    applyRel (fun _ => some 77) [⟨"", 3, 1, 0⟩] [0, 5000] true 5000
      true ⟨0, 0, 4, 0⟩ arena0 0 = .ok (arena0, 0 + 14) := by
  have hc := c1_plt32_trampoline (fun _ => some 77) [⟨"", 3, 1, 0⟩] [0, 5000]
    5000 ⟨0, 0, 4, 0⟩ arena0 0 5000 rfl rfl (by decide) (by decide)
    (by decide) (by decide)
  exact ⟨hc.1.1, hc.1.2.2.2.2.1, hc.1.2.2.2.2.2.2.2.1, hc.2⟩

/-- C10: in sizing mode the relocation engine performs no arena or
section write and skips the symbol-type dispatch (its result is
independent of the host resolver and the symbol table, so unresolved
externals and unsupported symbol kinds go undetected); when every
reachable relocation type is handled it returns the arena unchanged
together with 14 bytes per `PLT32` plus 8 bytes per `REX_GOTPCRELX` over
allocatable-target relocation sections, and an unknown relocation type
still makes it fail, with the arena unchanged at the failure point. -/
theorem c10_sizing_mode :
    ∀ (resolver resolver2 : String → Option Nat) (symtab symtab2 : List Sym)
      (addrs : List Nat) (file : ElfFile) (st : Arena),
    relocate resolver file symtab addrs true st =
      relocate resolver2 file symtab2 addrs true st ∧
    (allRelsHandled file →
      relocate resolver file symtab addrs true st =
        .ok (st, specSizingBytes file)) ∧
    (¬ allRelsHandled file →
      isOkE (relocate resolver file symtab addrs true st) = false ∧
      errArena (relocate resolver file symtab addrs true st) st = st) := by
  intro resolver resolver2 symtab symtab2 addrs file st
  refine ⟨relocate_sizing_indep _ _ _ _ _ _ _, ?_, ?_⟩
  · intro h
    exact relocate_sizing_sum _ _ _ _ _ h
  · intro h
    obtain ⟨msg, hmsg⟩ := relocate_sizing_err resolver symtab addrs file st h
    rw [hmsg]
    exact ⟨rfl, rfl⟩

/-- C10 witness: a `PLT32` object sizes to 14 bytes with the arena
untouched regardless of the resolver, and an unknown relocation type
fails in sizing mode. -/
theorem c10_sizing_mode_witness :
    relocate emptyResolver (objWithRelocType 4) [] [0, 4096, 0, 0] true
        arena0 =
      relocate (fun _ => some 5) (objWithRelocType 4) [nullSym]
        [0, 4096, 0, 0] true arena0 ∧
    relocate emptyResolver (objWithRelocType 4) [] [0, 4096, 0, 0] true
        arena0 = .ok (arena0, specSizingBytes (objWithRelocType 4)) ∧
    isOkE (relocate emptyResolver (objWithRelocType 99) [] [0, 4096, 0, 0]
      true arena0) = false := by
  refine ⟨(c10_sizing_mode emptyResolver (fun _ => some 5) [] [nullSym]
    [0, 4096, 0, 0] (objWithRelocType 4) arena0).1, ?_, ?_⟩
  · exact (c10_sizing_mode emptyResolver (fun _ => some 5) [] [nullSym]
      [0, 4096, 0, 0] (objWithRelocType 4) arena0).2.1 (by decide)
  · exact ((c10_sizing_mode emptyResolver (fun _ => some 5) [] [nullSym]
      [0, 4096, 0, 0] (objWithRelocType 99) arena0).2.2 (by decide)).1

end Objfcn
